import Mathlib

/-!
Verification development for the Machina virtual machine
(an assembly-like language: lexer, single-pass assembler/linker,
NaN-boxed values and a register-windowed interpreter).

The Rust sources are embedded shallowly:

* machine integers are modelled as `Nat`/`Int` with explicit `% 2 ^ w`
  reductions at the points where the Rust code casts or wraps;
* `u64` words of the NaN-boxed `Value` type are `Nat`s below `2 ^ 64`;
* Rust panics (failed `assert!`, out-of-bounds `Vec` indexing, integer
  overflow in debug builds, `todo!()`, `unwrap()` on `None`) are modelled
  by `Option`/`Except` with `none` / a dedicated failure constructor;
* `f64` values handled by the assembler are modelled by the inductive
  `F64`: a finite IEEE-754 binary64 value carried as the exact rational
  (`ℚ`) it denotes, or `±∞`.  `str::parse::<f64>` rounds the literal's
  exact decimal value to the nearest binary64 (ties to even, overflow to
  `±∞`), the cast `as f32` rounds again to binary32 precision and range,
  and `as f32 as i32` then truncates toward zero saturating at the `i32`
  bounds — all implemented over `Nat`/`Int`/`mkRat` arithmetic so that the
  kernel can evaluate them (`NaN` never arises on this path: the literal
  grammar the lexer accepts always parses);
* the `{:#?}` debug rendering of values is modelled by a small inductive
  (`ValueDebug`) carrying exactly the information the Rust `Debug`
  implementation prints.

Definition names follow `value.rs`, `bytecode.rs`, `machina.rs`,
`lexer.rs` and `parser.rs` of the repository.
-/

set_option maxRecDepth 100000

namespace Machina

/-! ### value.rs — NaN-boxed values -/

def MAX_NUM : Nat := 0xfff8000000000000

def NAN_TAG : Nat := MAX_NUM

def INT_TAG : Nat := 0xfff9000000000000

def CHR_TAG : Nat := 0xfffa000000000000

def PTR_TAG : Nat := 0xfffb000000000000

def TRUE_TAG : Nat := 0xfffc000000000000

def FLSE_TAG : Nat := 0xfffd000000000000

def NULL_TAG : Nat := 0xffff000000000000

/-- `pub struct Value(u64)` — the word is a natural number below `2 ^ 64`. -/
structure Value where
  word : Nat
deriving DecidableEq

/-- The 64-bit complement `!INT_TAG` used by `get_int`. -/
def NOT_INT_TAG : Nat := 0x0006ffffffffffff

/-- The 64-bit complement `!CHR_TAG` used by `get_char`. -/
def NOT_CHR_TAG : Nat := 0x0005ffffffffffff

/-- The 64-bit complement `!PTR_TAG` used by the debug formatter. -/
def NOT_PTR_TAG : Nat := 0x0004ffffffffffff

/-- Reinterpret the low 32 bits of a `u64` as an `i32` (the Rust `as i32`
cast). -/
def u64_as_i32 (n : Nat) : Int :=
  if n % 2 ^ 32 < 2 ^ 31 then ((n % 2 ^ 32 : Nat) : Int)
  else ((n % 2 ^ 32 : Nat) : Int) - 2 ^ 32

def Value.is_num (v : Value) : Bool := v.word < NAN_TAG

def Value.is_int (v : Value) : Bool := v.word &&& INT_TAG == INT_TAG

def Value.is_char (v : Value) : Bool := v.word &&& CHR_TAG == CHR_TAG

def Value.is_ptr (v : Value) : Bool := v.word &&& PTR_TAG == PTR_TAG

def Value.is_null (v : Value) : Bool := v.word == NULL_TAG

def Value.is_true (v : Value) : Bool := v.word == TRUE_TAG

def Value.is_false (v : Value) : Bool := v.word == FLSE_TAG

def Value.null : Value := ⟨NULL_TAG⟩

def Value.nan : Value := ⟨NAN_TAG⟩

def Value.get_raw (v : Value) : Nat := v.word

/-- `(self.0 & !INT_TAG) as i32` — no assertion. -/
def Value.get_int_unchecked (v : Value) : Int :=
  u64_as_i32 (v.word &&& NOT_INT_TAG)

/-- `get_int` carries `assert!(self.is_int())`; a failed assertion is a
panic, modelled as `none`. -/
def Value.get_int (v : Value) : Option Int :=
  if v.is_int then some v.get_int_unchecked else none

/-- `impl From<bool> for Value`. -/
def Value.from_bool (b : Bool) : Value :=
  if b then ⟨TRUE_TAG⟩ else ⟨FLSE_TAG⟩

/-- `impl From<i32> for Value`: `Value(INT_TAG | i as u64)`; the `as u64`
cast sign-extends, i.e. takes `i` modulo `2 ^ 64`. -/
def Value.from_i32 (i : Int) : Value :=
  ⟨INT_TAG ||| (i % (2 ^ 64 : Int)).toNat⟩

/-- `impl From<char> for Value`: `Value(CHR_TAG | c as u64)`. -/
def Value.from_char (c : Char) : Value :=
  ⟨CHR_TAG ||| c.toNat⟩

/-- `impl From<f64> for Value` is `Value(f.to_bits())`; the embedding takes
the IEEE-754 bit pattern of the double directly. -/
def Value.from_f64_bits (bits : Nat) : Value :=
  ⟨bits⟩

/-- Modelled from the spec: `Value::function` is called by `machina.rs`
(`get`, `Operand::Function` arm) but is not defined anywhere in the
repository's `value.rs`; the spec's tag table assigns function handles the
high-16 tag `0xfffc` with the index in the low 32 bits. -/
def Value.function (idx : Nat) : Value :=
  ⟨0xfffc000000000000 ||| idx % 2 ^ 32⟩

/-- The information printed by the manual `Debug` implementation of
`Value` (used by `WRITE` via `println!("{:#?}", …)`).  `NUM` keeps the raw
bits: the claims below never render a double. -/
inductive ValueDebug where
  | NUM (bits : Nat)
  | INT (i : Int)
  | CHAR (c : Char)
  | PTR (w : Nat)
  | NULL
  | TRUE
  | FALSE
  | NAN
deriving DecidableEq

/-- `get_char` without the assertion: `char::from_u32(.. & !CHR_TAG as u32)`,
`unwrap()` panics on a non-scalar payload. -/
def Value.get_char_unchecked (v : Value) : Option Char :=
  let payload := (v.word &&& NOT_CHR_TAG) % 2 ^ 32
  if payload < 0xd800 ∨ (0xe000 ≤ payload ∧ payload < 0x110000) then
    some (Char.ofNat payload)
  else none

/-- The `Debug for Value` if-chain; the `unwrap` inside `get_char` can
panic (`none`). -/
def Value.debug_fmt (v : Value) : Option ValueDebug :=
  if v.is_num then some (ValueDebug.NUM v.word)
  else if v.is_int then some (ValueDebug.INT v.get_int_unchecked)
  else if v.is_char then (v.get_char_unchecked).map ValueDebug.CHAR
  else if v.is_ptr then some (ValueDebug.PTR (v.word &&& NOT_PTR_TAG))
  else if v.is_null then some ValueDebug.NULL
  else if v.is_true then some ValueDebug.TRUE
  else if v.is_false then some ValueDebug.FALSE
  else some ValueDebug.NAN

/-- Rendering of a printed debug line as text.  The `NUM` case would go
through Rust's default `f64` formatting, which is not modelled (`none`);
no claim below prints a double. -/
def debug_text : ValueDebug → Option String
  | ValueDebug.NUM _ => none
  | ValueDebug.INT i => some (("INT ") ++ toString i)
  | ValueDebug.CHAR c => some (("CHAR ") ++ String.singleton c)
  | ValueDebug.PTR w => some (("PTR ") ++ toString w)
  | ValueDebug.NULL => some ("NULL")
  | ValueDebug.TRUE => some ("TRUE")
  | ValueDebug.FALSE => some ("FALSE")
  | ValueDebug.NAN => some ("NAN")

/-! ### Bit-level helper lemmas

The tags occupy the high 16 bits of the 64-bit word, so every masked test
splits at the `2 ^ 48` boundary. -/

theorem land_split {l₁ l₂ : Nat} (h₁ h₂ : Nat)
    (H₁ : l₁ < 2 ^ 48) (H₂ : l₂ < 2 ^ 48) :
    (2 ^ 48 * h₁ + l₁) &&& (2 ^ 48 * h₂ + l₂) =
      2 ^ 48 * (h₁ &&& h₂) + (l₁ &&& l₂) := by
  apply Nat.eq_of_testBit_eq
  intro j
  have Hb : l₁ &&& l₂ < 2 ^ 48 := Nat.and_lt_two_pow _ H₂
  rw [Nat.testBit_and, Nat.testBit_mul_pow_two_add _ H₁,
    Nat.testBit_mul_pow_two_add _ H₂, Nat.testBit_mul_pow_two_add _ Hb]
  by_cases hj : j < 48
  · simp [hj, Nat.testBit_and]
  · simp [hj, Nat.testBit_and]

theorem lor_split {l₁ l₂ : Nat} (h₁ h₂ : Nat)
    (H₁ : l₁ < 2 ^ 48) (H₂ : l₂ < 2 ^ 48) :
    (2 ^ 48 * h₁ + l₁) ||| (2 ^ 48 * h₂ + l₂) =
      2 ^ 48 * (h₁ ||| h₂) + (l₁ ||| l₂) := by
  apply Nat.eq_of_testBit_eq
  intro j
  have Hb : l₁ ||| l₂ < 2 ^ 48 := Nat.or_lt_two_pow H₁ H₂
  rw [Nat.testBit_or, Nat.testBit_mul_pow_two_add _ H₁,
    Nat.testBit_mul_pow_two_add _ H₂, Nat.testBit_mul_pow_two_add _ Hb]
  by_cases hj : j < 48
  · simp [hj, Nat.testBit_or]
  · simp [hj, Nat.testBit_or]

theorem land_low_mask {l : Nat} (H : l < 2 ^ 48) : l &&& (2 ^ 48 - 1) = l := by
  apply Nat.eq_of_testBit_eq
  intro j
  rw [Nat.testBit_and, Nat.testBit_two_pow_sub_one]
  by_cases hj : j < 48
  · simp [hj]
  · have hlt : l < 2 ^ j :=
      Nat.lt_of_lt_of_le H (Nat.pow_le_pow_right (by omega) (by omega))
    simp [hj, Nat.testBit_lt_two_pow hlt]

/-- The word built by `From<i32>` for a non-negative `i32`. -/
theorem from_i32_word_nonneg {i : Int} (h0 : 0 ≤ i) (h1 : i < 2 ^ 31) :
    (Value.from_i32 i).word = INT_TAG + i.toNat := by
  have hmod : (i % (2 ^ 64 : Int)) = i := Int.emod_eq_of_lt h0 (by omega)
  have hlt : i.toNat < 2 ^ 48 := by omega
  show INT_TAG ||| (i % (2 ^ 64 : Int)).toNat = INT_TAG + i.toNat
  rw [hmod]
  have : INT_TAG = 2 ^ 48 * 0xfff9 + 0 := by norm_num [INT_TAG]
  rw [this]
  have h2 : i.toNat = 2 ^ 48 * 0 + i.toNat := by ring
  rw [h2, lor_split _ _ (by norm_num) hlt]
  simp

/-- The word built by `From<i32>` for a negative `i32`: sign extension
fills the high 32 bits with ones, so or-ing in `INT_TAG` changes nothing
and the word is `2 ^ 64 + i`. -/
theorem from_i32_word_neg {i : Int} (h0 : -(2 ^ 31) ≤ i) (h1 : i < 0) :
    (Value.from_i32 i).word = ((2 ^ 64 : Int) + i).toNat := by
  have hmod : (i % (2 ^ 64 : Int)) = 2 ^ 64 + i := by omega
  show INT_TAG ||| (i % (2 ^ 64 : Int)).toNat = ((2 ^ 64 : Int) + i).toNat
  rw [hmod]
  obtain ⟨l, hl, hrep⟩ :
      ∃ l, l < 2 ^ 48 ∧ ((2 ^ 64 : Int) + i).toNat = 2 ^ 48 * 0xffff + l :=
    ⟨((2 ^ 64 : Int) + i).toNat - 2 ^ 48 * 0xffff, by omega, by omega⟩
  rw [hrep]
  have hI : INT_TAG = 2 ^ 48 * 0xfff9 + 0 := by norm_num [INT_TAG]
  rw [hI, lor_split _ _ (by norm_num) hl]
  have e1 : (0xfff9 ||| 0xffff : Nat) = 0xffff := by decide
  have e2 : (0 ||| l : Nat) = l := Nat.zero_or l
  rw [e1, e2]

/-- `is_int`, `is_char` and `is_ptr` all answer `true` on the word of a
negative `i32`, and `get_int_unchecked` still recovers `i`. -/
theorem tag_tests_neg {i : Int} (h0 : -(2 ^ 31) ≤ i) (h1 : i < 0) :
    (Value.from_i32 i).is_int = true ∧
    (Value.from_i32 i).is_char = true ∧
    (Value.from_i32 i).is_ptr = true ∧
    (Value.from_i32 i).get_int_unchecked = i := by
  obtain ⟨l, hl, hli, hrep⟩ :
      ∃ l : Nat, l < 2 ^ 48 ∧ (l : Int) = 2 ^ 48 + i ∧
        ((2 ^ 64 : Int) + i).toNat = 2 ^ 48 * 0xffff + l :=
    ⟨((2 ^ 64 : Int) + i).toNat - 2 ^ 48 * 0xffff, by omega, by omega, by omega⟩
  have hword : (Value.from_i32 i).word = 2 ^ 48 * 0xffff + l := by
    rw [from_i32_word_neg h0 h1, hrep]
  have hmask : ∀ t : Nat, t < 2 ^ 16 →
      (Value.from_i32 i).word &&& (2 ^ 48 * t + 0) =
        2 ^ 48 * (0xffff &&& t) + (l &&& 0) := by
    intro t ht
    rw [hword, land_split _ _ hl (by norm_num)]
  refine ⟨?_, ?_, ?_, ?_⟩
  · show ((Value.from_i32 i).word &&& INT_TAG == INT_TAG) = true
    have hI : INT_TAG = 2 ^ 48 * 0xfff9 + 0 := by norm_num [INT_TAG]
    have e : (0xffff &&& 0xfff9 : Nat) = 0xfff9 := by decide
    rw [hI, hmask _ (by norm_num), e]
    norm_num
  · show ((Value.from_i32 i).word &&& CHR_TAG == CHR_TAG) = true
    have hC : CHR_TAG = 2 ^ 48 * 0xfffa + 0 := by norm_num [CHR_TAG]
    have e : (0xffff &&& 0xfffa : Nat) = 0xfffa := by decide
    rw [hC, hmask _ (by norm_num), e]
    norm_num
  · show ((Value.from_i32 i).word &&& PTR_TAG == PTR_TAG) = true
    have hP : PTR_TAG = 2 ^ 48 * 0xfffb + 0 := by norm_num [PTR_TAG]
    have e : (0xffff &&& 0xfffb : Nat) = 0xfffb := by decide
    rw [hP, hmask _ (by norm_num), e]
    norm_num
  · show u64_as_i32 ((Value.from_i32 i).word &&& NOT_INT_TAG) = i
    have hN : NOT_INT_TAG = 2 ^ 48 * 0x0006 + (2 ^ 48 - 1) := by
      norm_num [NOT_INT_TAG]
    rw [hword, hN, land_split _ _ hl (by norm_num), land_low_mask hl]
    have e1 : (0xffff &&& 0x0006 : Nat) = 6 := by decide
    rw [e1]
    unfold u64_as_i32
    have hcond : ¬ ((2 ^ 48 * 6 + l) % 2 ^ 32 < 2 ^ 31) := by omega
    rw [if_neg hcond]
    omega

/-- `is_int` on a non-negative `i32` word, plus the `get_int` round trip. -/
theorem tag_tests_nonneg {i : Int} (h0 : 0 ≤ i) (h1 : i < 2 ^ 31) :
    (Value.from_i32 i).is_int = true ∧
    (Value.from_i32 i).get_int_unchecked = i := by
  have hl : i.toNat < 2 ^ 48 := by omega
  have hword : (Value.from_i32 i).word = 2 ^ 48 * 0xfff9 + i.toNat := by
    rw [from_i32_word_nonneg h0 h1]
    norm_num [INT_TAG]
  constructor
  · show ((Value.from_i32 i).word &&& INT_TAG == INT_TAG) = true
    have hI : INT_TAG = 2 ^ 48 * 0xfff9 + 0 := by norm_num [INT_TAG]
    rw [hI, hword, land_split _ _ hl (by norm_num)]
    norm_num
  · show u64_as_i32 ((Value.from_i32 i).word &&& NOT_INT_TAG) = i
    have hN : NOT_INT_TAG = 2 ^ 48 * 0x0006 + (2 ^ 48 - 1) := by
      norm_num [NOT_INT_TAG]
    rw [hword, hN, land_split _ _ hl (by norm_num), land_low_mask hl]
    have e1 : (0xfff9 &&& 0x0006 : Nat) = 0 := by decide
    rw [e1]
    unfold u64_as_i32
    have hcond : (2 ^ 48 * 0 + i.toNat) % 2 ^ 32 < 2 ^ 31 := by omega
    rw [if_pos hcond]
    omega

/-- `get_int` round trip over the whole `i32` range. -/
theorem get_int_from_i32 {i : Int} (h0 : -(2 ^ 31) ≤ i) (h1 : i < 2 ^ 31) :
    (Value.from_i32 i).get_int = some i := by
  unfold Value.get_int
  by_cases hneg : i < 0
  · obtain ⟨ha, _, _, hd⟩ := tag_tests_neg h0 hneg
    rw [ha, hd]
    simp
  · obtain ⟨ha, hb⟩ := tag_tests_nonneg (by omega) h1
    rw [ha, hb]
    simp

/-! ### bytecode.rs — opcodes, operands, instructions, modules -/

inductive OpCode where
  | Call | Ret | Move
  | Jmp | Jt | Jf | JLt | JLe | JGt | JGe | JEq | JNe
  | Lt | Le | Gt | Ge | Eq | Ne
  | Add | Sub | Mul | Div | Mod
  | Not | And | Or | Xor | Shl | Shr
  | Write
deriving DecidableEq

/-- `Immediate = i32`, `Position = u16`, `Register = u16`,
`ConstantIdx = u16`, `FunctionIdx = u16`; the `u16` payloads are `Nat`s
reduced modulo `2 ^ 16` at the casts in the linker. -/
inductive Operand where
  | None
  | Immediate (i : Int)
  | Position (p : Nat)
  | Register (r : Nat)
  | Function (f : Nat)
  | Constant (c : Nat)
deriving DecidableEq

/-- `{ opcode, operands: [Operand; 4] }`; every linked instruction carries
exactly four slots (`build_instruction` starts from `[Operand::None; 4]`),
so the list always has length four and the accessor indices 0–3 are in
bounds. -/
structure Instruction where
  opcode : OpCode
  operands : List Operand
deriving DecidableEq

def Instruction.get (ins : Instruction) (arg : Nat) : Operand :=
  ins.operands.getD arg Operand.None

/-- `register` panics unless the slot holds `Operand::Register`. -/
def Instruction.register (ins : Instruction) (arg : Nat) : Option Nat :=
  match ins.get arg with
  | Operand.Register r => some r
  | _ => none

def Instruction.position (ins : Instruction) (arg : Nat) : Option Nat :=
  match ins.get arg with
  | Operand.Position p => some p
  | _ => none

def Instruction.function (ins : Instruction) (arg : Nat) : Option Nat :=
  match ins.get arg with
  | Operand.Function f => some f
  | _ => none

/-! #### IEEE-754 binary floating point

The assembler parses number literals with `str::parse::<f64>` and casts
with `as f32` / `as i32`.  Both float formats are modelled exactly: a
finite binary64/binary32 value is the rational `± m · 2 ^ q` with
`m < 2 ^ prec` and `q ≥ qmin`; parsing and the `f64 → f32` cast perform
round-to-nearest, ties-to-even, overflowing to `±∞`.  Everything is
plain `Nat`/`Int` arithmetic so the kernel can evaluate it. -/

/-- `floor_log2 fuel n = ⌊log₂ n⌋` whenever `n ≥ 1` and `fuel ≥ log₂ n`
(the recursion halves `n` once per step, so `fuel = n` always suffices). -/
def floor_log2 : Nat → Nat → Nat
  | 0, _ => 0
  | fuel + 1, n => if 2 ≤ n then floor_log2 fuel (n / 2) + 1 else 0

def log2_floor (n : Nat) : Nat := floor_log2 n n

/-- `2 ^ k ≤ n / d` for naturals `n, d ≥ 1` and an integer exponent. -/
def rat_le_pow2 (n d : Nat) (k : Int) : Bool :=
  if 0 ≤ k then d * 2 ^ k.toNat ≤ n else d ≤ n * 2 ^ (-k).toNat

/-- The exponent `e` with `2 ^ e ≤ n / d < 2 ^ (e + 1)` (`n, d ≥ 1`):
`⌊log₂ n⌋ − ⌊log₂ d⌋` is `e` or `e + 1`, so one comparison settles it. -/
def rat_floor_log2 (n d : Nat) : Int :=
  let e0 : Int := (log2_floor n : Int) - (log2_floor d : Int)
  if rat_le_pow2 n d e0 then e0 else e0 - 1

/-- Round `(n / d) / 2 ^ q` to an integer, nearest, ties to even
(`n, d ≥ 1`). -/
def round_half_even (n d : Nat) (q : Int) : Nat :=
  let N := if 0 ≤ q then n else n * 2 ^ (-q).toNat
  let D := if 0 ≤ q then d * 2 ^ q.toNat else d
  let m0 := N / D
  let r := N % D
  if 2 * r < D then m0
  else if D < 2 * r then m0 + 1
  else if m0 % 2 = 0 then m0 else m0 + 1

/-- Round the positive rational `n / d` to the nearest value of the
binary format with `prec` significand bits, least grid exponent `qmin`
and largest finite value `(2 ^ prec − 1) · 2 ^ qmax`, ties to even:
`some (m, q)` is the value `m · 2 ^ q` (`m = 0` on underflow to zero),
`none` is overflow to infinity.  The grid exponent is
`max (e − (prec − 1)) qmin` — subnormals use the coarsest grid `qmin` —
and IEEE overflow is exactly the rounded value exceeding the largest
finite one. -/
def round_pos_binary (prec : Nat) (qmin qmax : Int) (n d : Nat) :
    Option (Nat × Int) :=
  let e := rat_floor_log2 n d
  let q := max (e - ((prec : Int) - 1)) qmin
  let m := round_half_even n d q
  let overflow :=
    if q ≤ qmax then (2 ^ prec - 1) * 2 ^ (qmax - q).toNat < m
    else 2 ^ prec - 1 < m * 2 ^ (q - qmax).toNat
  if overflow then none else some (m, q)

/-- The rational `± m · 2 ^ q`. -/
def signed_pow2 (neg : Bool) (m : Nat) (q : Int) : ℚ :=
  let mi : Int := if neg then -(m : Int) else (m : Int)
  if 0 ≤ q then mkRat (mi * 2 ^ q.toNat) 1 else mkRat mi (2 ^ (-q).toNat)

/-- An `f64` value reachable from the assembler's number pipeline: a
finite IEEE binary64 value (carried as the exact rational it denotes),
or an infinity.  `NaN` is not constructible from a decimal literal or
from casting a finite value, so it has no constructor. -/
inductive F64 where
  | finite (q : ℚ)
  | inf
  | neginf
deriving DecidableEq

/-- Round the rational `(-1) ^ neg · n / d` (`n, d ≥ 1`) into the given
binary format, overflowing to the correctly signed infinity. -/
def round_signed (prec : Nat) (qmin qmax : Int) (neg : Bool) (n d : Nat) :
    F64 :=
  match round_pos_binary prec qmin qmax n d with
  | some (m, q) => F64.finite (signed_pow2 neg m q)
  | none => if neg then F64.neginf else F64.inf

/-- `Constant::String(String) | Constant::Number(Number)`; the `f64`
payload of `Number` is an `F64` (the literal's value rounded to
binary64). -/
inductive Constant where
  | String (s : String)
  | Number (f : F64)
deriving DecidableEq

/-- `Function { locals: u8, instructions }`. -/
structure Function where
  locals : Nat
  instructions : List Instruction
deriving DecidableEq

structure Module where
  functions : List Function
  constants : List Constant
deriving DecidableEq

/-! ### machina.rs — the interpreter

The source calls the interpreter struct `Machina`; it is called `Machine`
here because `Machina` is this development's namespace.  The `output`
field collects the lines printed by `WRITE` (`println!("{:#?}", value)`),
one `ValueDebug` per line.  All panics (failed asserts, out-of-bounds
indexing, `todo!()`, debug-mode integer overflow) are `none`. -/

def INITIAL_REG_SIZE : Nat := 16

structure Environment where
  functions : List Function
deriving DecidableEq

def Environment.get_function (env : Environment) (index : Nat) :
    Option Function :=
  env.functions.get? index

structure Machine where
  registers : List Value
  bp : Nat
  rp : Nat
  output : List ValueDebug
deriving DecidableEq

def Machine.new : Machine :=
  ⟨List.replicate INITIAL_REG_SIZE Value.null, 0, 0, []⟩

/-- `self.registers[self.bp + reg] = value` — indexing panics out of
bounds. -/
def Machine.set (st : Machine) (reg : Nat) (value : Value) : Option Machine :=
  if st.bp + reg < st.registers.length then
    some { st with registers := st.registers.set (st.bp + reg) value }
  else none

/-- Operand read (`fn get`).  The `Operand::Constant` arm is `todo!()` in
the source, i.e. a panic. -/
def Machine.get (st : Machine) (value : Operand) : Option Value :=
  match value with
  | Operand.Register r => st.registers.get? (st.bp + r)
  | Operand.Immediate imm => some (Value.from_i32 imm)
  | Operand.Constant _ => none
  | Operand.Function idx => some (Value.function idx)
  | _ => some Value.null

/-- `self.rp = (self.bp + total) - 1` — usize subtraction, which panics
(debug) when `bp + total = 0`. -/
def Machine.alloc (st : Machine) (total : Nat) : Option Machine :=
  if st.bp + total = 0 then none
  else some { st with rp := st.bp + total - 1 }

/-- `Vec::resize(new_len, value)`: extend with copies of `value`, or
truncate. -/
def list_resize (l : List Value) (n : Nat) (v : Value) : List Value :=
  if n ≤ l.length then l.take n else l ++ List.replicate (n - l.length) v

/-- `resize_registers`: one conditional resize to `(1.5 * curr as f32) as
usize`.  For every list length reachable here `3 * curr < 2 ^ 24`, so the
`f32` product is exact and the `as usize` cast truncates: the new length
is `⌊3 * curr / 2⌋`.  Note the source resizes once, without looping. -/
def Machine.resize_registers (st : Machine) (total : Nat) : Machine :=
  let curr := st.registers.length
  let diff : Int := (curr : Int) - ((st.rp + total : Nat) : Int)
  if diff ≤ 0 then
    { st with registers := list_resize st.registers (3 * curr / 2) Value.null }
  else st

/-- The argument-copy loop of `call`:
`for (idx, reg) in (first ..= last).enumerate()`
`{ registers[rp + idx] = registers[bp + reg] }`. -/
def copy_args_go (st : Machine) (first idx count : Nat) : Option Machine :=
  match count with
  | 0 => some st
  | Nat.succ c => do
      let v ← st.registers.get? (st.bp + (first + idx))
      if st.rp + idx < st.registers.length then
        copy_args_go
          { st with registers := st.registers.set (st.rp + idx) v }
          first (idx + 1) c
      else none

/-! i32 arithmetic as performed by the opcode handlers; debug-build
overflow and division by zero panic (`none`). -/

def i32_add (a b : Int) : Option Int :=
  if -(2 ^ 31) ≤ a + b ∧ a + b < 2 ^ 31 then some (a + b) else none

def i32_sub (a b : Int) : Option Int :=
  if -(2 ^ 31) ≤ a - b ∧ a - b < 2 ^ 31 then some (a - b) else none

def i32_mul (a b : Int) : Option Int :=
  if -(2 ^ 31) ≤ a * b ∧ a * b < 2 ^ 31 then some (a * b) else none

/-- Rust `i32` division truncates toward zero; `b = 0` and
`i32::MIN / -1` panic. -/
def i32_div (a b : Int) : Option Int :=
  if b = 0 ∨ (a = -(2 ^ 31) ∧ b = -1) then none else some (Int.tdiv a b)

def i32_mod (a b : Int) : Option Int :=
  if b = 0 ∨ (a = -(2 ^ 31) ∧ b = -1) then none else some (Int.tmod a b)

def i32_to_u32 (a : Int) : Nat := (a % (2 ^ 32 : Int)).toNat

def i32_and (a b : Int) : Int := u64_as_i32 (i32_to_u32 a &&& i32_to_u32 b)

def i32_or (a b : Int) : Int := u64_as_i32 (i32_to_u32 a ||| i32_to_u32 b)

def i32_xor (a b : Int) : Int := u64_as_i32 (i32_to_u32 a ^^^ i32_to_u32 b)

/-- `!a` on `i32` is the two's-complement bitwise complement. -/
def i32_not (a : Int) : Int := -a - 1

/-- `a << b` panics (debug) unless `0 ≤ b < 32`; bits shifted out are
discarded. -/
def i32_shl (a b : Int) : Option Int :=
  if 0 ≤ b ∧ b < 32 then some (u64_as_i32 (i32_to_u32 a <<< b.toNat))
  else none

/-- `a >> b` is the arithmetic (sign-extending) shift, i.e. flooring
division by `2 ^ b`; panics (debug) unless `0 ≤ b < 32`. -/
def i32_shr (a b : Int) : Option Int :=
  if 0 ≤ b ∧ b < 32 then some (Int.fdiv a (2 ^ b.toNat)) else none

/-! The per-opcode handlers of `machina.rs`. -/

def Machine.eval_move (st : Machine) (i : Instruction) : Option Machine := do
  let v ← st.get (i.get 1)
  let r ← i.register 0
  st.set r v

def Machine.eval_jmp (i : Instruction) : Option Nat :=
  i.position 0

def Machine.eval_jt (st : Machine) (i : Instruction) (ip : Nat) :
    Option Nat := do
  let v ← st.get (i.get 1)
  if v.is_true then i.position 0 else pure ip

def Machine.eval_jf (st : Machine) (i : Instruction) (ip : Nat) :
    Option Nat := do
  let v ← st.get (i.get 1)
  if v.is_false then i.position 0 else pure ip

/-- Shared shape of `eval_jlt` … `eval_jne`: both sides read with
`get_int` (assert + panic), then the comparison decides the jump. -/
def Machine.eval_jcmp (st : Machine) (i : Instruction) (ip : Nat)
    (cmp : Int → Int → Bool) : Option Nat := do
  let a ← st.get (i.get 1)
  let b ← st.get (i.get 2)
  let ai ← a.get_int
  let bi ← b.get_int
  if cmp ai bi then i.position 0 else pure ip

/-- Shared shape of `eval_lt` … `eval_ne`: the destination register gets
`Value::from(a.get_int() ⊙ b.get_int())`. -/
def Machine.eval_cmp (st : Machine) (i : Instruction)
    (cmp : Int → Int → Bool) : Option Machine := do
  let a ← st.get (i.get 0)
  let b ← st.get (i.get 1)
  let ai ← a.get_int
  let bi ← b.get_int
  let r ← i.register 0
  st.set r (Value.from_bool (cmp ai bi))

/-- Shared shape of `eval_add` … `eval_mod` and the bitwise handlers:
`self.set(register(0), Value::from(a.get_int() ⊙ b.get_int()))`. -/
def Machine.eval_bin (st : Machine) (i : Instruction)
    (op : Int → Int → Option Int) : Option Machine := do
  let a ← st.get (i.get 0)
  let b ← st.get (i.get 1)
  let ai ← a.get_int
  let bi ← b.get_int
  let s ← op ai bi
  let r ← i.register 0
  st.set r (Value.from_i32 s)

def Machine.eval_eq (st : Machine) (i : Instruction) : Option Machine :=
  st.eval_cmp i (fun a b => a == b)

def Machine.eval_ne (st : Machine) (i : Instruction) : Option Machine :=
  st.eval_cmp i (fun a b => a != b)

def Machine.eval_add (st : Machine) (i : Instruction) : Option Machine :=
  st.eval_bin i i32_add

def Machine.eval_sub (st : Machine) (i : Instruction) : Option Machine :=
  st.eval_bin i i32_sub

def Machine.eval_mul (st : Machine) (i : Instruction) : Option Machine :=
  st.eval_bin i i32_mul

def Machine.eval_div (st : Machine) (i : Instruction) : Option Machine :=
  st.eval_bin i i32_div

def Machine.eval_not (st : Machine) (i : Instruction) : Option Machine := do
  let a ← st.get (i.get 0)
  let ai ← a.get_int
  let r ← i.register 0
  st.set r (Value.from_i32 (i32_not ai))

def Machine.eval_ret (st : Machine) (i : Instruction) (ret : Nat) :
    Option Machine := do
  let v ← st.get (i.get 0)
  st.set ret v

def Machine.eval_write (st : Machine) (i : Instruction) : Option Machine := do
  let v ← st.get (i.get 0)
  let d ← v.debug_fmt
  some { st with output := st.output ++ [d] }

/-! `call` and the fetch–decode–execute loop.  `call` saves `(bp, rp)`,
sets `bp := rp`, runs `eval` (= `alloc` followed by the loop) and restores
`(bp, rp)` afterwards.  In the source, `call` and `eval` are mutually
recursive; here the body of `call` is inlined into the loop's `Call` arm
(and stated once more as the standalone `Machine.call` below) so that the
recursion is structural in `fuel` — one unit per executed instruction and
per nested call, `none` on exhausted fuel. -/

def Machine.eval_loop (fuel : Nat) (env : Environment)
    (function : Function) (ret : Nat) (st : Machine) (ip : Nat) :
    Option Machine :=
  match fuel with
  | 0 => none
  | Nat.succ fuel => do
      let instruction ← function.instructions.get? ip
      let ip := ip + 1
      match instruction.opcode with
      | OpCode.Move => do
          let st ← st.eval_move instruction
          Machine.eval_loop fuel env function ret st ip
      | OpCode.Call => do
          -- eval_call: register range check, then `self.call(...)`, whose
          -- body is inlined here (same code as `Machine.call` below):
          let first ← instruction.register 2
          let last ← instruction.register 3
          if first > last then none else do
          let r ← instruction.register 1
          let f ← instruction.function 0
          let function' ← env.get_function f
          -- `(last - first) + 1` is a u16 subtraction: panics when
          -- last < first
          if last < first then none else do
          let st₁ := st.resize_registers ((last - first) + 1)
          let st₂ ← copy_args_go st₁ first 0 ((last - first) + 1)
          -- let _bp = self.bp; let _rp = self.rp; self.bp = self.rp;
          let st₃ := { st₂ with bp := st₂.rp }
          -- self.eval(function, ret) — alloc, then the dispatch loop:
          let st₄ ← st₃.alloc function'.locals
          let st₅ ← Machine.eval_loop fuel env function' r st₄ 0
          -- self.rp = _rp; self.bp = _bp;  (after eval has returned)
          let st := { st₅ with rp := st₂.rp, bp := st₂.bp }
          Machine.eval_loop fuel env function ret st ip
      | OpCode.Jmp => do
          let ip ← Machine.eval_jmp instruction
          Machine.eval_loop fuel env function ret st ip
      | OpCode.Jt => do
          let ip ← st.eval_jt instruction ip
          Machine.eval_loop fuel env function ret st ip
      | OpCode.Jf => do
          let ip ← st.eval_jf instruction ip
          Machine.eval_loop fuel env function ret st ip
      | OpCode.JLt => do
          let ip ← st.eval_jcmp instruction ip (fun a b => a < b)
          Machine.eval_loop fuel env function ret st ip
      | OpCode.JLe => do
          let ip ← st.eval_jcmp instruction ip (fun a b => a ≤ b)
          Machine.eval_loop fuel env function ret st ip
      | OpCode.JGt => do
          let ip ← st.eval_jcmp instruction ip (fun a b => b < a)
          Machine.eval_loop fuel env function ret st ip
      | OpCode.JGe => do
          let ip ← st.eval_jcmp instruction ip (fun a b => b ≤ a)
          Machine.eval_loop fuel env function ret st ip
      | OpCode.JEq => do
          let ip ← st.eval_jcmp instruction ip (fun a b => a == b)
          Machine.eval_loop fuel env function ret st ip
      | OpCode.JNe => do
          let ip ← st.eval_jcmp instruction ip (fun a b => a != b)
          Machine.eval_loop fuel env function ret st ip
      | OpCode.Lt => do
          let st ← st.eval_cmp instruction (fun a b => a < b)
          Machine.eval_loop fuel env function ret st ip
      | OpCode.Le => do
          let st ← st.eval_cmp instruction (fun a b => a ≤ b)
          Machine.eval_loop fuel env function ret st ip
      | OpCode.Gt => do
          let st ← st.eval_cmp instruction (fun a b => b < a)
          Machine.eval_loop fuel env function ret st ip
      | OpCode.Ge => do
          let st ← st.eval_cmp instruction (fun a b => b ≤ a)
          Machine.eval_loop fuel env function ret st ip
      | OpCode.Eq => do
          let st ← st.eval_eq instruction
          Machine.eval_loop fuel env function ret st ip
      | OpCode.Ne => do
          let st ← st.eval_ne instruction
          Machine.eval_loop fuel env function ret st ip
      | OpCode.Add => do
          let st ← st.eval_add instruction
          Machine.eval_loop fuel env function ret st ip
      | OpCode.Sub => do
          let st ← st.eval_sub instruction
          Machine.eval_loop fuel env function ret st ip
      | OpCode.Mul => do
          let st ← st.eval_mul instruction
          Machine.eval_loop fuel env function ret st ip
      | OpCode.Div => do
          let st ← st.eval_div instruction
          Machine.eval_loop fuel env function ret st ip
      | OpCode.Mod => do
          let st ← st.eval_bin instruction i32_mod
          Machine.eval_loop fuel env function ret st ip
      | OpCode.And => do
          let st ← st.eval_bin instruction (fun a b => some (i32_and a b))
          Machine.eval_loop fuel env function ret st ip
      | OpCode.Or => do
          let st ← st.eval_bin instruction (fun a b => some (i32_or a b))
          Machine.eval_loop fuel env function ret st ip
      | OpCode.Xor => do
          let st ← st.eval_bin instruction (fun a b => some (i32_xor a b))
          Machine.eval_loop fuel env function ret st ip
      | OpCode.Shl => do
          let st ← st.eval_bin instruction i32_shl
          Machine.eval_loop fuel env function ret st ip
      | OpCode.Shr => do
          let st ← st.eval_bin instruction i32_shr
          Machine.eval_loop fuel env function ret st ip
      | OpCode.Not => do
          let st ← st.eval_not instruction
          Machine.eval_loop fuel env function ret st ip
      | OpCode.Ret => do
          let st ← st.eval_ret instruction ret
          pure st
      | OpCode.Write => do
          let st ← st.eval_write instruction
          Machine.eval_loop fuel env function ret st ip

/-- `pub fn call`: the host-facing entry (and the function the inlined
`Call` arm above repeats).  One fuel unit is consumed here, and the
callee's loop runs on the remainder. -/
def Machine.call (fuel : Nat) (env : Environment) (st : Machine)
    (index ret first last : Nat) : Option Machine :=
  match fuel with
  | 0 => none
  | Nat.succ fuel => do
      let function ← env.get_function index
      -- `(last - first) + 1` is a u16 subtraction: panics when last < first
      if last < first then none else
      let st₁ := st.resize_registers ((last - first) + 1)
      let st₂ ← copy_args_go st₁ first 0 ((last - first) + 1)
      -- let _bp = self.bp; let _rp = self.rp; self.bp = self.rp;
      let st₃ := { st₂ with bp := st₂.rp }
      -- self.eval(function, ret) — alloc, then the dispatch loop:
      let st₄ ← st₃.alloc function.locals
      let st₅ ← Machine.eval_loop fuel env function ret st₄ 0
      -- self.rp = _rp; self.bp = _bp;  (only after eval has returned)
      pure { st₅ with rp := st₂.rp, bp := st₂.bp }

/-- `fn eval` of the source: allocate the callee's locals, then run the
dispatch loop from instruction 0 (`Machine.call` inlines exactly this). -/
def Machine.eval (fuel : Nat) (env : Environment) (function : Function)
    (ret : Nat) (st : Machine) : Option Machine := do
  let st' ← st.alloc function.locals
  Machine.eval_loop fuel env function ret st' 0

/-! ### error.rs — the error type used by the lexer and the parser

`src/error.rs` in the repository holds an older error enum; the
`MachinaErrorKind` that `lexer.rs` and `parser.rs` construct is not
defined anywhere under the sources. -/

/-- Modelled from the spec: `MachinaErrorKind` is referenced by `lexer.rs`
and `parser.rs` but missing from the repository's sources; the spec's §7
error taxonomy lists the kinds together with their payloads. -/
inductive MachinaErrorKind where
  | UnterminatedString
  | Expected (expected : String) (found : String)
  | InvalidCharacter (c : Char)
  | InvalidInstruction (s : String)
  | TargetNotFound (s : String)
  | FunctionNotFound (s : String)
  | InvalidRegister (s : String)
deriving DecidableEq

structure MachinaError where
  kind : MachinaErrorKind
  line : Nat
deriving DecidableEq

/-- Failure of the assembler front end: a reported `MachinaError`, a Rust
panic (`unwrap`, out-of-bounds indexing), or — a model artifact — an
exhausted recursion bound (`fuel`, never reached on the concrete inputs
below when enough fuel is supplied). -/
inductive Fail where
  | err (e : MachinaError)
  | panicked
  | fuel
deriving DecidableEq

/-! ### lexer.rs -/

/-- The `Token` enum of the source is payload-free (`Copy`); payloads
travel through the `value` side channel (`take_value`).  Here a token is
the pair of its kind and the side-channel payload it deposited. -/
inductive TokenKind where
  | LParen | RParen | LBrace | RBrace | LBracket | RBracket | Comma
  | Call | Ret | Move
  | Jmp | Jt | Jf | JLt | JLe | JGt | JGe | JEq | JNe
  | Lt | Le | Gt | Ge | Eq | Ne
  | Add | Sub | Mul | Div | Mod
  | Not | And | Or | Xor | Shl | Shr
  | Write
  | String | Number | Label | Function | Register
  | Operand | Instruction
  | EOL | EOF
deriving DecidableEq

structure Token where
  kind : TokenKind
  value : Option String
deriving DecidableEq

/-- `impl fmt::Display for Token`. -/
def token_display : TokenKind → String
  | TokenKind.LParen => "("
  | TokenKind.RParen => ")"
  | TokenKind.LBrace => "\x7b"
  | TokenKind.RBrace => "\x7d"
  | TokenKind.LBracket => "["
  | TokenKind.RBracket => "]"
  | TokenKind.Comma => ","
  | TokenKind.Call => "call"
  | TokenKind.Ret => "ret"
  | TokenKind.Move => "move"
  | TokenKind.Jmp => "jmp"
  | TokenKind.Jt => "jt"
  | TokenKind.Jf => "jf"
  | TokenKind.JLt => "jlt"
  | TokenKind.JLe => "jle"
  | TokenKind.JGt => "jgt"
  | TokenKind.JGe => "jge"
  | TokenKind.JEq => "jeq"
  | TokenKind.JNe => "jne"
  | TokenKind.Lt => "lt"
  | TokenKind.Le => "le"
  | TokenKind.Gt => "gt"
  | TokenKind.Ge => "ge"
  | TokenKind.Eq => "eq"
  | TokenKind.Ne => "ne"
  | TokenKind.Add => "add"
  | TokenKind.Sub => "sub"
  | TokenKind.Mul => "mul"
  | TokenKind.Div => "div"
  | TokenKind.Mod => "mod"
  | TokenKind.Not => "not"
  | TokenKind.And => "and"
  | TokenKind.Or => "or"
  | TokenKind.Xor => "xor"
  | TokenKind.Shl => "shl"
  | TokenKind.Shr => "shr"
  | TokenKind.Write => "write"
  | TokenKind.String => "string"
  | TokenKind.Number => "number"
  | TokenKind.Label => "label"
  | TokenKind.Function => "function"
  | TokenKind.Register => "register"
  | TokenKind.Operand => "operand"
  | TokenKind.Instruction => "instruction"
  | TokenKind.EOL => "end of line"
  | TokenKind.EOF => "end of file"

/-- `fn get_instruction` — the mnemonic table. -/
def get_instruction : String → Option TokenKind
  | "call" => some TokenKind.Call
  | "ret" => some TokenKind.Ret
  | "move" => some TokenKind.Move
  | "jmp" => some TokenKind.Jmp
  | "jt" => some TokenKind.Jt
  | "jf" => some TokenKind.Jf
  | "jlt" => some TokenKind.JLt
  | "jle" => some TokenKind.JLe
  | "jgt" => some TokenKind.JGt
  | "jge" => some TokenKind.JGe
  | "jeq" => some TokenKind.JEq
  | "jne" => some TokenKind.JNe
  | "lt" => some TokenKind.Lt
  | "le" => some TokenKind.Le
  | "gt" => some TokenKind.Gt
  | "ge" => some TokenKind.Ge
  | "eq" => some TokenKind.Eq
  | "ne" => some TokenKind.Ne
  | "add" => some TokenKind.Add
  | "sub" => some TokenKind.Sub
  | "mul" => some TokenKind.Mul
  | "div" => some TokenKind.Div
  | "mod" => some TokenKind.Mod
  | "not" => some TokenKind.Not
  | "and" => some TokenKind.And
  | "or" => some TokenKind.Or
  | "xor" => some TokenKind.Xor
  | "shl" => some TokenKind.Shl
  | "shr" => some TokenKind.Shr
  | "write" => some TokenKind.Write
  | _ => none

/-- `fn is_alpha`: `[A-Za-z0-9_]`. -/
def is_alpha_char (c : Char) : Bool :=
  (0x61 ≤ c.toNat ∧ c.toNat ≤ 0x7a) ∨ (0x41 ≤ c.toNat ∧ c.toNat ≤ 0x5a) ∨
  (0x30 ≤ c.toNat ∧ c.toNat ≤ 0x39) ∨ c = '_'

/-- `fn is_number`: `[0-9]`. -/
def is_number_char (c : Char) : Bool :=
  0x30 ≤ c.toNat ∧ c.toNat ≤ 0x39

/-- `[a-zA-Z]` — the characters that start a mnemonic. -/
def is_ascii_letter (c : Char) : Bool :=
  (0x61 ≤ c.toNat ∧ c.toNat ≤ 0x7a) ∨ (0x41 ≤ c.toNat ∧ c.toNat ≤ 0x5a)

/-- `self.is_number(self.peek)` — a sign starts a number only when the
peeked character is a digit. -/
def peek_is_number : List Char → Bool
  | d :: _ => is_number_char d
  | [] => false

/-- `fn comment` stops before the next newline (which stays in the
input). -/
def not_newline (c : Char) : Bool := c ≠ '\n'

/-- The whitespace/comment skipping performed by the `continue` arms of
`next_token`'s loop (`fn space` and `fn comment`); a run of spaces is
consumed one character per step, which is observationally the same. -/
def skip_trivia : List Char → List Char
  | [] => []
  | c :: rest =>
    if c = ' ' ∨ c = '\t' ∨ c = '\r' then skip_trivia rest
    else if c = ';' then
      -- `fn comment` stops before the newline; the re-entered loop skips
      -- nothing further, because the next character is a newline or the
      -- end of input, neither of which is trivia
      rest.dropWhile not_newline
    else c :: rest

/-- `fn identifier`: the marker character is already consumed; the
payload is the following `[A-Za-z0-9_]*` run. -/
def lex_identifier (kind : TokenKind) (cs : List Char) (line : Nat) :
    Token × List Char × Nat :=
  (⟨kind, some (String.mk (cs.takeWhile is_alpha_char))⟩,
    cs.dropWhile is_alpha_char, line)

/-- `fn instruction`: lower-case the run and look it up; unknown
mnemonics are `InvalidInstruction`. -/
def lex_instruction (cs : List Char) (line : Nat) :
    Except Fail (Token × List Char × Nat) :=
  let value := cs.takeWhile is_alpha_char
  let rest := cs.dropWhile is_alpha_char
  match get_instruction (String.mk (value.map Char.toLower)) with
  | some kind => Except.ok (⟨kind, none⟩, rest, line)
  | none =>
      Except.error (Fail.err ⟨MachinaErrorKind.InvalidInstruction
        (String.mk value), line⟩)

/-- `fn number`: an optional sign (already validated to precede a digit),
digits, and a fractional part only when `.` is followed by a digit. -/
def lex_number (pfx : Bool) (cs : List Char) (line : Nat) :
    Token × List Char × Nat :=
  let s0 := if pfx then cs.take 1 else []
  let cs0 := if pfx then cs.drop 1 else cs
  let ipart := cs0.takeWhile is_number_char
  let cs1 := cs0.dropWhile is_number_char
  match cs1 with
  | '.' :: d :: rest =>
    if is_number_char d then
      let fpart := (d :: rest).takeWhile is_number_char
      let cs2 := (d :: rest).dropWhile is_number_char
      (⟨TokenKind.Number,
        some (String.mk (s0 ++ ipart ++ ['.'] ++ fpart))⟩, cs2, line)
    else (⟨TokenKind.Number, some (String.mk (s0 ++ ipart))⟩, cs1, line)
  | _ => (⟨TokenKind.Number, some (String.mk (s0 ++ ipart))⟩, cs1, line)

/-- The scanning loop of `fn string`.  Note the source's escape handling:
`match self.next_char()` matches the backslash itself (that is what
`next_char` returns), so every escape pushes `\` and then copies the
following character verbatim; a backslash at end of input reaches the
`unwrap()` at the bottom of the loop and panics; a bare newline or end of
input is `UnterminatedString`. -/
def lex_string_go (line : Nat) (acc : List Char) :
    List Char → Except Fail (List Char × List Char)
  | [] =>
      Except.error (Fail.err ⟨MachinaErrorKind.UnterminatedString, line⟩)
  | '\n' :: _ =>
      Except.error (Fail.err ⟨MachinaErrorKind.UnterminatedString, line⟩)
  | '"' :: rest => Except.ok (acc, rest)
  | '\\' :: rest =>
      match rest with
      | [] => Except.error Fail.panicked
      | d :: rest' => lex_string_go line (acc ++ ['\\', d]) rest'
  | c :: rest => lex_string_go line (acc ++ [c]) rest

/-- `fn string`: the opening quote is already consumed. -/
def lex_string (cs : List Char) (line : Nat) :
    Except Fail (Token × List Char × Nat) := do
  let (value, rest) ← lex_string_go line [] cs
  Except.ok (⟨TokenKind.String, some (String.mk value)⟩, rest, line)

/-- `fn next_token`: skip the trivia the loop's `continue` arms consume,
then dispatch on the current character. -/
def next_token (cs : List Char) (line : Nat) :
    Except Fail (Token × List Char × Nat) :=
  match skip_trivia cs with
  | [] => Except.ok (⟨TokenKind.EOF, none⟩, [], line)
  | c :: rest =>
    if c = '.' then Except.ok (lex_identifier TokenKind.Label rest line)
    else if c = '%' then
      Except.ok (lex_identifier TokenKind.Register rest line)
    else if c = '@' then
      Except.ok (lex_identifier TokenKind.Function rest line)
    else if is_ascii_letter c then lex_instruction (c :: rest) line
    else if is_number_char c then Except.ok (lex_number false (c :: rest) line)
    else if (c = '-' ∨ c = '+') ∧ peek_is_number rest then
      Except.ok (lex_number true (c :: rest) line)
    else if c = '"' then lex_string rest line
    else if c = '\n' then Except.ok (⟨TokenKind.EOL, none⟩, rest, line + 1)
    else if c = ',' then Except.ok (⟨TokenKind.Comma, none⟩, rest, line)
    else if c = '(' then Except.ok (⟨TokenKind.LParen, none⟩, rest, line)
    else if c = ')' then Except.ok (⟨TokenKind.RParen, none⟩, rest, line)
    else if c = '\x7b' then Except.ok (⟨TokenKind.LBrace, none⟩, rest, line)
    else if c = '\x7d' then Except.ok (⟨TokenKind.RBrace, none⟩, rest, line)
    else if c = '[' then Except.ok (⟨TokenKind.LBracket, none⟩, rest, line)
    else if c = ']' then Except.ok (⟨TokenKind.RBracket, none⟩, rest, line)
    else Except.error (Fail.err ⟨MachinaErrorKind.InvalidCharacter c, line⟩)

/-- `Lexer::new`'s `initialize` skips the newlines at the very start of
the source, incrementing the line counter; those never become `EOL`
tokens. -/
def skip_leading_newlines : List Char → Nat → List Char × Nat
  | '\n' :: rest, line => skip_leading_newlines rest (line + 1)
  | cs, line => (cs, line)

/-! ### parser.rs — parse phase (tokens → `PreFunction`s) -/

inductive PreOperand where
  | String (s : String)
  | Number (s : String)
  | Register (s : String)
  | Function (s : String)
  | Label (s : String)
deriving DecidableEq

structure PreInstruction where
  opcode : OpCode
  line : Nat
  operands : List PreOperand
deriving DecidableEq

structure Block where
  label : String
  instructions : List PreInstruction
deriving DecidableEq

structure PreFunction where
  name : String
  blocks : List Block
deriving DecidableEq

/-- Parser state: the lexer (remaining input and current line) plus the
one-token lookahead. -/
structure Parser where
  input : List Char
  line : Nat
  token : Token
deriving DecidableEq

/-- `fn next`: pull the next token from the lexer (the lexer's iterator
never yields `None`; at the end of input it returns `EOF` tokens). -/
def Parser.next (p : Parser) : Except Fail Parser := do
  let (t, cs, ln) ← next_token p.input p.line
  Except.ok ⟨cs, ln, t⟩

def Parser.token_is (p : Parser) (k : TokenKind) : Bool :=
  p.token.kind == k

/-- `fn unexpected`: the `Expected` error joins the backtick-quoted
display forms of the expected tokens. -/
def Parser.unexpected (p : Parser) (tokens : List TokenKind) : MachinaError :=
  ⟨MachinaErrorKind.Expected
    (String.intercalate (", ")
      (tokens.map (fun t => ("\x60") ++ token_display t ++ ("\x60"))))
    (token_display p.token.kind), p.line⟩

def Parser.eat (p : Parser) (tkn : TokenKind) : Except Fail Parser :=
  if p.token.kind == tkn then p.next
  else Except.error (Fail.err (p.unexpected [tkn]))

/-- `fn take`: grab the side-channel payload (`take_value().unwrap()`
panics when the current token deposited none), then advance. -/
def Parser.take (p : Parser) (tkn : TokenKind) :
    Except Fail (String × Parser) :=
  if p.token.kind == tkn then
    match p.token.value with
    | some v => do
        let p' ← p.next
        Except.ok (v, p')
    | none => Except.error Fail.panicked
  else Except.error (Fail.err (p.unexpected [tkn]))

def Parser.expect_one_of (p : Parser) (tokens : List TokenKind) :
    Except Fail Unit :=
  if tokens.contains p.token.kind then Except.ok ()
  else Except.error (Fail.err (p.unexpected tokens))

def Parser.parse_operand (p : Parser) (kind : TokenKind) (eat_comma : Bool) :
    Except Fail (PreOperand × Parser) := do
  let _u ←
    if kind == TokenKind.Operand then
      p.expect_one_of [TokenKind.String, TokenKind.Number, TokenKind.Register]
    else
      p.expect_one_of [kind]
  let (operand, p) ←
    match p.token.kind with
    | TokenKind.String => do
        let (v, p) ← p.take TokenKind.String
        Except.ok (PreOperand.String v, p)
    | TokenKind.Number => do
        let (v, p) ← p.take TokenKind.Number
        Except.ok (PreOperand.Number v, p)
    | TokenKind.Register => do
        let (v, p) ← p.take TokenKind.Register
        Except.ok (PreOperand.Register v, p)
    | TokenKind.Function => do
        let (v, p) ← p.take TokenKind.Function
        Except.ok (PreOperand.Function v, p)
    | TokenKind.Label => do
        let (v, p) ← p.take TokenKind.Label
        Except.ok (PreOperand.Label v, p)
    | _ =>
        Except.error (Fail.err (p.unexpected
          [TokenKind.String, TokenKind.Number, TokenKind.Register,
            TokenKind.Function, TokenKind.Label]))
  let p ← if eat_comma then p.eat TokenKind.Comma else Except.ok p
  Except.ok (operand, p)

def Parser.parse_call_instruction (p : Parser) :
    Except Fail (PreInstruction × Parser) := do
  let p ← p.eat TokenKind.Call
  let (o₁, p) ← p.parse_operand TokenKind.Function true
  let (o₂, p) ← p.parse_operand TokenKind.Register true
  let (o₃, p) ← p.parse_operand TokenKind.Register true
  let (o₄, p) ← p.parse_operand TokenKind.Register false
  Except.ok (⟨OpCode.Call, p.line, [o₁, o₂, o₃, o₄]⟩, p)

def Parser.parse_move_instruction (p : Parser) :
    Except Fail (PreInstruction × Parser) := do
  let p ← p.eat TokenKind.Move
  let (o₁, p) ← p.parse_operand TokenKind.Register true
  let (o₂, p) ← p.parse_operand TokenKind.Operand false
  Except.ok (⟨OpCode.Move, p.line, [o₁, o₂]⟩, p)

def Parser.parse_jump_instructions (p : Parser) :
    Except Fail (PreInstruction × Parser) := do
  let opcode ←
    match p.token.kind with
    | TokenKind.Jmp => Except.ok OpCode.Jmp
    | TokenKind.Jt => Except.ok OpCode.Jt
    | TokenKind.Jf => Except.ok OpCode.Jf
    | TokenKind.JLt => Except.ok OpCode.JLt
    | TokenKind.JLe => Except.ok OpCode.JLe
    | TokenKind.JGt => Except.ok OpCode.JGt
    | TokenKind.JGe => Except.ok OpCode.JGe
    | TokenKind.JEq => Except.ok OpCode.JEq
    | TokenKind.JNe => Except.ok OpCode.JNe
    | _ => Except.error (Fail.err (p.unexpected [TokenKind.Instruction]))
  let p ← p.next
  let (o₁, p) ← p.parse_operand TokenKind.Label true
  match opcode with
  | OpCode.Jmp =>
      Except.ok (⟨opcode, p.line, [o₁]⟩, p)
  | OpCode.Jt | OpCode.Jf => do
      let (o₂, p) ← p.parse_operand TokenKind.Register true
      Except.ok (⟨opcode, p.line, [o₁, o₂]⟩, p)
  | OpCode.JLt | OpCode.JLe | OpCode.JGt | OpCode.JGe
  | OpCode.JEq | OpCode.JNe => do
      let (o₂, p) ← p.parse_operand TokenKind.Register true
      let (o₃, p) ← p.parse_operand TokenKind.Operand false
      Except.ok (⟨opcode, p.line, [o₁, o₂, o₃]⟩, p)
  | _ => Except.error Fail.panicked

def Parser.parse_unary_instructions (p : Parser) :
    Except Fail (PreInstruction × Parser) := do
  let opcode ←
    match p.token.kind with
    | TokenKind.Not => Except.ok OpCode.Not
    | TokenKind.Ret => Except.ok OpCode.Ret
    | TokenKind.Write => Except.ok OpCode.Write
    | _ => Except.error (Fail.err (p.unexpected [TokenKind.Instruction]))
  let p ← p.next
  let (o₁, p) ← p.parse_operand TokenKind.Register false
  Except.ok (⟨opcode, p.line, [o₁]⟩, p)

def Parser.parse_binary_instructions (p : Parser) :
    Except Fail (PreInstruction × Parser) := do
  let opcode ←
    match p.token.kind with
    | TokenKind.Lt => Except.ok OpCode.Lt
    | TokenKind.Le => Except.ok OpCode.Le
    | TokenKind.Gt => Except.ok OpCode.Gt
    | TokenKind.Ge => Except.ok OpCode.Ge
    | TokenKind.Eq => Except.ok OpCode.Eq
    | TokenKind.Ne => Except.ok OpCode.Ne
    | TokenKind.Add => Except.ok OpCode.Add
    | TokenKind.Sub => Except.ok OpCode.Sub
    | TokenKind.Mul => Except.ok OpCode.Mul
    | TokenKind.Div => Except.ok OpCode.Div
    | TokenKind.Mod => Except.ok OpCode.Mod
    | TokenKind.And => Except.ok OpCode.And
    | TokenKind.Or => Except.ok OpCode.Or
    | TokenKind.Xor => Except.ok OpCode.Xor
    | TokenKind.Shl => Except.ok OpCode.Shl
    | TokenKind.Shr => Except.ok OpCode.Shr
    | _ => Except.error (Fail.err (p.unexpected [TokenKind.Instruction]))
  let p ← p.next
  let (o₁, p) ← p.parse_operand TokenKind.Register true
  let (o₂, p) ← p.parse_operand TokenKind.Operand false
  Except.ok (⟨opcode, p.line, [o₁, o₂]⟩, p)

def Parser.parse_instruction (p : Parser) :
    Except Fail (PreInstruction × Parser) :=
  match p.token.kind with
  | TokenKind.Call => p.parse_call_instruction
  | TokenKind.Move => p.parse_move_instruction
  | TokenKind.Jmp | TokenKind.Jt | TokenKind.Jf
  | TokenKind.JLt | TokenKind.JLe | TokenKind.JGt | TokenKind.JGe
  | TokenKind.JEq | TokenKind.JNe => p.parse_jump_instructions
  | TokenKind.Lt | TokenKind.Le | TokenKind.Gt | TokenKind.Ge
  | TokenKind.Eq | TokenKind.Ne
  | TokenKind.Add | TokenKind.Sub | TokenKind.Mul | TokenKind.Div
  | TokenKind.Mod
  | TokenKind.And | TokenKind.Or | TokenKind.Xor
  | TokenKind.Shl | TokenKind.Shr => p.parse_binary_instructions
  | TokenKind.Ret | TokenKind.Not | TokenKind.Write =>
      p.parse_unary_instructions
  | _ => Except.error (Fail.err (p.unexpected [TokenKind.Instruction]))

/-- The instruction loop of `fn parse_block`; bounded by `fuel`. -/
def Parser.parse_block_items (fuel : Nat) (p : Parser)
    (acc : List PreInstruction) :
    Except Fail (List PreInstruction × Parser) :=
  match fuel with
  | 0 => Except.error Fail.fuel
  | Nat.succ fuel =>
    if p.token_is TokenKind.Label ∨ p.token_is TokenKind.Function ∨
        p.token_is TokenKind.EOF then
      Except.ok (acc, p)
    else do
      let (ins, p) ← p.parse_instruction
      Parser.parse_block_items fuel p (acc ++ [ins])

def Parser.parse_block (fuel : Nat) (p : Parser) (label : String) :
    Except Fail (Block × Parser) := do
  let (instructions, p) ← Parser.parse_block_items fuel p []
  Except.ok (⟨label, instructions⟩, p)

/-- The `while self.token_is(Token::Label)` loop of `fn parse_function`. -/
def Parser.parse_label_blocks (fuel : Nat) (p : Parser) (acc : List Block) :
    Except Fail (List Block × Parser) :=
  match fuel with
  | 0 => Except.error Fail.fuel
  | Nat.succ fuel =>
    if p.token_is TokenKind.Label then do
      let (label, p) ← p.take TokenKind.Label
      let (block, p) ← Parser.parse_block fuel p label
      Parser.parse_label_blocks fuel p (acc ++ [block])
    else Except.ok (acc, p)

/-- `fn parse_function`: `@name`, an implicit `"<main>"` block, then the
labelled blocks. -/
def Parser.parse_function (fuel : Nat) (p : Parser) :
    Except Fail (PreFunction × Parser) := do
  let (name, p) ← p.take TokenKind.Function
  let (b₀, p) ← Parser.parse_block fuel p ("<main>")
  let (bs, p) ← Parser.parse_label_blocks fuel p []
  Except.ok (⟨name, b₀ :: bs⟩, p)

/-- The `while !self.token_is(Token::EOF)` loop of `fn parse`. -/
def Parser.parse_functions (fuel : Nat) (p : Parser)
    (acc : List PreFunction) : Except Fail (List PreFunction × Parser) :=
  match fuel with
  | 0 => Except.error Fail.fuel
  | Nat.succ fuel =>
    if p.token_is TokenKind.EOF then Except.ok (acc, p)
    else do
      let (f, p) ← Parser.parse_function fuel p
      Parser.parse_functions fuel p (acc ++ [f])

/-! ### parser.rs — link phase (`build`, `build_function`,
`build_instruction`, `define_constant`, `define_register`) -/

def digits_to_nat (cs : List Char) : Nat :=
  cs.foldl (fun acc c => acc * 10 + (c.toNat - 0x30)) 0

/-- Rust `str::parse::<u16>` on the payload alphabet the lexer produces
for registers (`[A-Za-z0-9_]+`): all digits, non-empty, within range.
(`parse::<u16>` would also accept a leading `+`, which that alphabet
excludes.) -/
def parse_u16 (s : String) : Option Nat :=
  let cs := s.toList
  if cs ≠ [] ∧ cs.all is_number_char then
    if digits_to_nat cs < 2 ^ 16 then some (digits_to_nat cs) else none
  else none

/-- Rust `str::parse::<f64>` on the literal grammar the lexer produces
(`('+'|'-')? digits ('.' digits)?`): the literal's exact rational value
`± (ip · 10 ^ |fp| + fp) / 10 ^ |fp|` rounded to the nearest binary64
(`prec = 53`, `qmin = −1074`, `qmax = 971`), ties to even, overflow to
`±∞`. -/
def parse_f64 (s : String) : Option F64 :=
  let cs := s.toList
  let neg : Bool := match cs with | '-' :: _ => true | _ => false
  let cs := match cs with | '-' :: r => r | '+' :: r => r | _ => cs
  let ip := cs.takeWhile is_number_char
  let rest := cs.dropWhile is_number_char
  if ip = [] then none
  else
    match rest with
    | [] =>
        let M := digits_to_nat ip
        if M = 0 then some (F64.finite 0)
        else some (round_signed 53 (-1074) 971 neg M 1)
    | '.' :: fp =>
        if fp ≠ [] ∧ fp.all is_number_char then
          let M := digits_to_nat ip * 10 ^ fp.length + digits_to_nat fp
          if M = 0 then some (F64.finite 0)
          else some (round_signed 53 (-1074) 971 neg M (10 ^ fp.length))
        else none
    | _ => none

/-- `f32::MAX as f64` — exactly `(2 ^ 24 − 1) · 2 ^ 104`. -/
def F32_MAX : ℚ := mkRat (16777215 * 2 ^ 104) 1

/-- The test `num <= f32::MAX as f64` (IEEE `≤`: `+∞` fails it, `−∞`
passes it; `NaN` is unreachable here). -/
def f64_le_f32_max : F64 → Bool
  | F64.finite q => decide (q ≤ F32_MAX)
  | F64.inf => false
  | F64.neginf => true

/-- The cast `num as f32`: round to binary32 (`prec = 24`,
`qmin = −149`, `qmax = 104`), nearest, ties to even, overflow to `±∞`.
The result is again an `F64` (every binary32 value is a binary64
value). -/
def f64_as_f32 : F64 → F64
  | F64.inf => F64.inf
  | F64.neginf => F64.neginf
  | F64.finite q =>
      if q = 0 then F64.finite 0
      else if 0 < q then round_signed 24 (-149) 104 false q.num.toNat q.den
      else round_signed 24 (-149) 104 true (-q.num).toNat q.den

/-- The Rust float-to-integer cast `as i32`: truncate toward zero,
saturating at the `i32` bounds; `±∞` saturates (`NaN → 0` is
unreachable here). -/
def float_as_i32 : F64 → Int
  | F64.inf => 2 ^ 31 - 1
  | F64.neginf => -(2 ^ 31)
  | F64.finite q =>
      let t := Int.tdiv q.num (q.den : Int)
      if t < -(2 ^ 31) then -(2 ^ 31)
      else if 2 ^ 31 - 1 < t then 2 ^ 31 - 1
      else t

/-- `(num as f32) as i32`: binary32 rounding, then saturating
truncation. -/
def f64_as_f32_as_i32 (x : F64) : Int := float_as_i32 (f64_as_f32 x)

/-- `fn define_constant`: always push (no de-duplication); the index is
cast `as u16`. -/
def define_constant (constant : Constant) (constants : List Constant) :
    Operand × List Constant :=
  (Operand.Constant (constants.length % 2 ^ 16), constants ++ [constant])

/-- `fn define_register`: `registers.entry(register).or_insert(len)` —
the map is modelled as an association list in insertion order. -/
def define_register (register : Nat) (registers : List (Nat × Nat)) :
    Operand × List (Nat × Nat) :=
  let index := registers.length % 2 ^ 16
  match registers.lookup register with
  | some v => (Operand.Register v, registers)
  | none => (Operand.Register index, registers ++ [(register, index)])

/-- `HashMap` lookup for maps built by repeated inserts: a later binding
for a key overwrites an earlier one. -/
def map_get (m : List (String × Nat)) (k : String) : Option Nat :=
  m.reverse.lookup k

def build_operand (labels functions : List (String × Nat)) (line : Nat)
    (operand : PreOperand) (registers : List (Nat × Nat))
    (constants : List Constant) :
    Except Fail (Operand × List (Nat × Nat) × List Constant) :=
  match operand with
  | PreOperand.String string =>
      let (o, constants) := define_constant (Constant.String string) constants
      Except.ok (o, registers, constants)
  | PreOperand.Number number =>
      -- `number.parse::<f64>().unwrap()` panics on an unparsable literal
      match parse_f64 number with
      | none => Except.error Fail.panicked
      | some num =>
        if f64_le_f32_max num then
          Except.ok (Operand.Immediate (f64_as_f32_as_i32 num),
            registers, constants)
        else
          let (o, constants) :=
            define_constant (Constant.Number num) constants
          Except.ok (o, registers, constants)
  | PreOperand.Register register =>
      match parse_u16 register with
      | none =>
          Except.error (Fail.err
            ⟨MachinaErrorKind.InvalidRegister register, line⟩)
      | some r =>
          let (o, registers) := define_register r registers
          Except.ok (o, registers, constants)
  | PreOperand.Function name =>
      match map_get functions name with
      | none =>
          Except.error (Fail.err
            ⟨MachinaErrorKind.FunctionNotFound name, line⟩)
      | some idx =>
          Except.ok (Operand.Function (idx % 2 ^ 16), registers, constants)
  | PreOperand.Label label =>
      match map_get labels label with
      | none =>
          Except.error (Fail.err
            ⟨MachinaErrorKind.TargetNotFound label, line⟩)
      | some pos =>
          Except.ok (Operand.Position (pos % 2 ^ 16), registers, constants)

/-- The `for (i, operand) in operands.enumerate()` loop of
`build_instruction`; writing slot `i ≥ 4` would panic. -/
def build_operands (labels functions : List (String × Nat)) (line : Nat) :
    List PreOperand → Nat → List Operand → List (Nat × Nat) →
    List Constant →
    Except Fail (List Operand × List (Nat × Nat) × List Constant)
  | [], _, arr, registers, constants => Except.ok (arr, registers, constants)
  | operand :: ops, i, arr, registers, constants => do
      let (o, registers, constants) ←
        build_operand labels functions line operand registers constants
      if i < 4 then
        build_operands labels functions line ops (i + 1) (arr.set i o)
          registers constants
      else Except.error Fail.panicked

def build_instruction (labels functions : List (String × Nat))
    (pins : PreInstruction) (registers : List (Nat × Nat))
    (constants : List Constant) :
    Except Fail (Instruction × List (Nat × Nat) × List Constant) := do
  let (operands, registers, constants) ←
    build_operands labels functions pins.line pins.operands 0
      [Operand.None, Operand.None, Operand.None, Operand.None]
      registers constants
  Except.ok (⟨pins.opcode, operands⟩, registers, constants)

def build_instructions (labels functions : List (String × Nat)) :
    List PreInstruction → List (Nat × Nat) → List Constant →
    Except Fail (List Instruction × List (Nat × Nat) × List Constant)
  | [], registers, constants => Except.ok ([], registers, constants)
  | pins :: rest, registers, constants => do
      let (ins, registers, constants) ←
        build_instruction labels functions pins registers constants
      let (more, registers, constants) ←
        build_instructions labels functions rest registers constants
      Except.ok (ins :: more, registers, constants)

/-- The label map of `build_function`: each block's label is bound to the
running instruction counter (a later duplicate overwrites, hence
`map_get`). -/
def block_labels : List Block → Nat → List (String × Nat)
  | [], _ => []
  | b :: bs, count =>
      (b.label, count) :: block_labels bs (count + b.instructions.length)

def build_function (pf : PreFunction) (functions : List (String × Nat))
    (constants : List Constant) : Except Fail (Function × List Constant) := do
  let labels := block_labels pf.blocks 0
  let pins := (pf.blocks.map Block.instructions).flatten
  let (instructions, registers, constants) ←
    build_instructions labels functions pins [] constants
  -- `locals: registers.len() as u8`
  Except.ok (⟨registers.length % 2 ^ 8, instructions⟩, constants)

/-- The `name → index` map of `fn build` (`enumerate().collect()`). -/
def function_indexes (pfs : List PreFunction) : List (String × Nat) :=
  pfs.enum.map (fun p => (p.2.name, p.1))

def build_functions_go :
    List PreFunction → List (String × Nat) → List Constant →
    Except Fail (List Function × List Constant)
  | [], _, constants => Except.ok ([], constants)
  | pf :: rest, indexes, constants => do
      let (f, constants) ← build_function pf indexes constants
      let (fs, constants) ← build_functions_go rest indexes constants
      Except.ok (f :: fs, constants)

def Parser.build (pfs : List PreFunction) : Except Fail Module := do
  let (functions, constants) ← build_functions_go pfs (function_indexes pfs) []
  Except.ok ⟨functions, constants⟩

/-- `Parser::new(source).parse()`: initialize the lexer (consuming the
newlines at the start of the source), pull the first token, run the
function loop, then link. -/
def parse_program (fuel : Nat) (source : String) : Except Fail Module := do
  let (cs, line) := skip_leading_newlines source.toList 0
  let p ← Parser.next ⟨cs, line, ⟨TokenKind.EOF, none⟩⟩
  let (pfs, _p) ← Parser.parse_functions fuel p []
  Parser.build pfs

/-- Host-side execution of a linked module, as `main.rs` drives it:
`Machina::new(&env).call(index, ret, first, last)` on a fresh machine. -/
def run_module (fuel : Nat) (m : Module) (index ret first last : Nat) :
    Option Machine :=
  Machine.call fuel ⟨m.functions⟩ Machine.new index ret first last

/-! ### Helper lemmas about the machine -/

theorem resize_registers_bp (st : Machine) (total : Nat) :
    (st.resize_registers total).bp = st.bp := by
  simp only [Machine.resize_registers]
  split <;> rfl

theorem resize_registers_rp (st : Machine) (total : Nat) :
    (st.resize_registers total).rp = st.rp := by
  simp only [Machine.resize_registers]
  split <;> rfl

theorem copy_args_go_bp_rp :
    ∀ (count : Nat) {st st' : Machine} {first idx : Nat},
    copy_args_go st first idx count = some st' →
    st'.bp = st.bp ∧ st'.rp = st.rp := by
  intro count
  induction count with
  | zero =>
      intro st st' first idx h
      simp [copy_args_go] at h
      subst h
      exact ⟨rfl, rfl⟩
  | succ c ih =>
      intro st st' first idx h
      obtain ⟨v, _hv, h⟩ := Option.bind_eq_some.mp h
      split at h
      · have hrec := ih h
        exact hrec
      · simp at h

/-- `pub fn call` restores the saved `(bp, rp)` pair after `eval`
returns — whatever the callee did. -/
theorem call_restores_bp_rp
    (fuel : Nat) (env : Environment) (st : Machine)
    (index ret first last : Nat) (st' : Machine)
    (h : Machine.call fuel env st index ret first last = some st') :
    st'.bp = st.bp ∧ st'.rp = st.rp := by
  cases fuel with
  | zero => simp [Machine.call] at h
  | succ fuel =>
      obtain ⟨function, _hf, h⟩ := Option.bind_eq_some.mp h
      split at h
      · simp at h
      · obtain ⟨st₂, hcopy, h⟩ := Option.bind_eq_some.mp h
        obtain ⟨st₄, _halloc, h⟩ := Option.bind_eq_some.mp h
        obtain ⟨st₅, _heval, h⟩ := Option.bind_eq_some.mp h
        obtain ⟨hbp, hrp⟩ := copy_args_go_bp_rp _ hcopy
        rw [resize_registers_bp] at hbp
        rw [resize_registers_rp] at hrp
        cases h
        exact ⟨hbp, hrp⟩

theorem list_resize_length (l : List Value) (n : Nat) (v : Value) :
    (list_resize l n v).length = n := by
  unfold list_resize
  split
  · simp [List.length_take]
    omega
  · simp
    omega

/-- The `Debug` rendering of an int-tagged word is `INT i`, for the whole
`i32` range (negative payloads also fail `is_num`, because sign extension
sets the high bits). -/
theorem debug_fmt_from_i32 {i : Int} (h0 : -(2 ^ 31) ≤ i) (h1 : i < 2 ^ 31) :
    (Value.from_i32 i).debug_fmt = some (ValueDebug.INT i) := by
  by_cases hneg : i < 0
  · obtain ⟨ha, _, _, hd⟩ := tag_tests_neg h0 hneg
    have hword := from_i32_word_neg h0 hneg
    have hnum : (Value.from_i32 i).is_num = false := by
      show decide ((Value.from_i32 i).word < NAN_TAG) = false
      rw [hword]
      simp only [decide_eq_false_iff_not]
      unfold NAN_TAG MAX_NUM
      omega
    unfold Value.debug_fmt
    rw [hnum, ha]
    simp only [Bool.false_eq_true, if_false, if_true]
    rw [hd]
  · obtain ⟨ha, hd⟩ := tag_tests_nonneg (by omega) h1
    have hword := from_i32_word_nonneg (by omega) h1
    have hnum : (Value.from_i32 i).is_num = false := by
      show decide ((Value.from_i32 i).word < NAN_TAG) = false
      rw [hword]
      simp only [decide_eq_false_iff_not]
      unfold NAN_TAG MAX_NUM INT_TAG
      omega
    unfold Value.debug_fmt
    rw [hnum, ha]
    simp only [Bool.false_eq_true, if_false, if_true]
    rw [hd]

/-! ### Helper lemmas about the link phase (register renumbering) -/

/-- One step of first-occurrence collection. -/
def occ_step (acc : List Nat) (r : Nat) : List Nat :=
  if r ∈ acc then acc else acc ++ [r]

/-- The distinct register ids of a list, in order of first occurrence. -/
def first_occs (l : List Nat) : List Nat := l.foldl occ_step []

/-- The (parseable) register ids an operand contributes. -/
def operand_reg_ids : PreOperand → List Nat
  | PreOperand.Register s =>
      (match parse_u16 s with | some r => [r] | none => [])
  | _ => []

def operands_reg_ids (l : List PreOperand) : List Nat :=
  (l.map operand_reg_ids).flatten

/-- All register ids referenced by a pre-function's body, in order. -/
def pre_function_reg_ids (pf : PreFunction) : List Nat :=
  (((pf.blocks.map Block.instructions).flatten).map
    (fun pins => operands_reg_ids pins.operands)).flatten

theorem lookup_none_iff {m : List (Nat × Nat)} {r : Nat} :
    m.lookup r = none ↔ r ∉ m.map Prod.fst := by
  induction m with
  | nil => simp
  | cons p rest ih =>
      obtain ⟨k, v⟩ := p
      by_cases h : r = k
      · subst h
        simp [List.lookup]
      · have hbeq : (r == k) = false := by simp [h]
        simp [List.lookup, hbeq, ih, h]

theorem define_register_keys (r : Nat) (m : List (Nat × Nat)) :
    ((define_register r m).2).map Prod.fst = occ_step (m.map Prod.fst) r := by
  unfold define_register occ_step
  cases hl : m.lookup r with
  | some v =>
      have : ¬ (m.lookup r = none) := by simp [hl]
      rw [lookup_none_iff] at this
      simp at this
      simp [this]
  | none =>
      have := lookup_none_iff.mp hl
      simp [this]

theorem build_operand_keys {labels functions : List (String × Nat)}
    {line : Nat} {op : PreOperand} {registers : List (Nat × Nat)}
    {constants : List Constant} {o : Operand} {rs : List (Nat × Nat)}
    {cs : List Constant}
    (h : build_operand labels functions line op registers constants =
      Except.ok (o, rs, cs)) :
    rs.map Prod.fst =
      (operand_reg_ids op).foldl occ_step (registers.map Prod.fst) := by
  cases op with
  | String s =>
      simp [build_operand, define_constant] at h
      obtain ⟨_, h2, _⟩ := h
      subst h2
      simp [operand_reg_ids]
  | Number s =>
      unfold build_operand at h
      dsimp only at h
      cases hp : parse_f64 s with
      | none => rw [hp] at h; simp at h
      | some num =>
          rw [hp] at h
          dsimp only at h
          split at h
          · cases h
            simp [operand_reg_ids]
          · cases h
            simp [operand_reg_ids]
  | Register s =>
      unfold build_operand at h
      dsimp only at h
      cases hp : parse_u16 s with
      | none => rw [hp] at h; simp at h
      | some r =>
          rw [hp] at h
          dsimp only at h
          cases hd : define_register r registers with
          | mk o' rs' =>
              rw [hd] at h
              dsimp only at h
              cases h
              have := define_register_keys r registers
              rw [hd] at this
              simpa [operand_reg_ids, hp] using this
  | Function s =>
      unfold build_operand at h
      dsimp only at h
      cases hp : map_get functions s with
      | none => rw [hp] at h; simp at h
      | some idx =>
          rw [hp] at h
          dsimp only at h
          cases h
          simp [operand_reg_ids]
  | Label s =>
      unfold build_operand at h
      dsimp only at h
      cases hp : map_get labels s with
      | none => rw [hp] at h; simp at h
      | some pos =>
          rw [hp] at h
          dsimp only at h
          cases h
          simp [operand_reg_ids]

theorem build_operands_keys {labels functions : List (String × Nat)}
    {line : Nat} :
    ∀ {ops : List PreOperand} {i : Nat} {arr : List Operand}
      {registers : List (Nat × Nat)} {constants : List Constant}
      {out : List Operand} {rs : List (Nat × Nat)} {cs : List Constant},
    build_operands labels functions line ops i arr registers constants =
      Except.ok (out, rs, cs) →
    rs.map Prod.fst =
      (operands_reg_ids ops).foldl occ_step (registers.map Prod.fst) := by
  intro ops
  induction ops with
  | nil =>
      intro i arr registers constants out rs cs h
      simp [build_operands] at h
      obtain ⟨_, h2, _⟩ := h
      subst h2
      simp [operands_reg_ids]
  | cons op rest ih =>
      intro i arr registers constants out rs cs h
      simp only [build_operands] at h
      cases hb : build_operand labels functions line op registers constants with
      | error e => rw [hb] at h; simp [Bind.bind, Except.bind] at h
      | ok t =>
          obtain ⟨o, rs', cs'⟩ := t
          rw [hb] at h
          simp only [Bind.bind, Except.bind] at h
          split at h
          · have hrec := ih h
            rw [hrec, build_operand_keys hb]
            simp [operands_reg_ids, List.foldl_append]
          · simp at h

theorem build_instructions_keys {labels functions : List (String × Nat)} :
    ∀ {pins : List PreInstruction} {registers : List (Nat × Nat)}
      {constants : List Constant} {out : List Instruction}
      {rs : List (Nat × Nat)} {cs : List Constant},
    build_instructions labels functions pins registers constants =
      Except.ok (out, rs, cs) →
    rs.map Prod.fst =
      ((pins.map (fun p => operands_reg_ids p.operands)).flatten).foldl
        occ_step (registers.map Prod.fst) := by
  intro pins
  induction pins with
  | nil =>
      intro registers constants out rs cs h
      simp [build_instructions] at h
      obtain ⟨_, h2, _⟩ := h
      subst h2
      simp
  | cons p rest ih =>
      intro registers constants out rs cs h
      simp only [build_instructions] at h
      cases hb : build_instruction labels functions p registers constants with
      | error e => rw [hb] at h; simp [Bind.bind, Except.bind] at h
      | ok t =>
          obtain ⟨ins, rs', cs'⟩ := t
          rw [hb] at h
          simp only [Bind.bind, Except.bind] at h
          cases hc : build_instructions labels functions rest rs' cs' with
          | error e => rw [hc] at h; simp [Bind.bind, Except.bind] at h
          | ok t' =>
              obtain ⟨more, rs'', cs''⟩ := t'
              rw [hc] at h
              simp [Bind.bind, Except.bind] at h
              obtain ⟨_, h2, _⟩ := h
              subst h2
              -- unpack build_instruction into build_operands
              have hkeys : rs'.map Prod.fst =
                  (operands_reg_ids p.operands).foldl occ_step
                    (registers.map Prod.fst) := by
                simp only [build_instruction] at hb
                cases ho : build_operands labels functions p.line p.operands 0
                    [Operand.None, Operand.None, Operand.None, Operand.None]
                    registers constants with
                | error e => rw [ho] at hb; simp [Bind.bind, Except.bind] at hb
                | ok t'' =>
                    obtain ⟨ops', rs₀, cs₀⟩ := t''
                    rw [ho] at hb
                    simp [Bind.bind, Except.bind] at hb
                    obtain ⟨_, hb2, _⟩ := hb
                    subst hb2
                    exact build_operands_keys ho
              rw [ih hc, hkeys]
              simp [List.foldl_append]

/-- `locals` of a linked function counts the distinct register ids of the
body (in first-occurrence order), cast `as u8`. -/
theorem build_function_locals {pf : PreFunction}
    {functions : List (String × Nat)} {constants : List Constant}
    {f : Function} {constants' : List Constant}
    (h : build_function pf functions constants = Except.ok (f, constants')) :
    f.locals = (first_occs (pre_function_reg_ids pf)).length % 2 ^ 8 := by
  simp only [build_function] at h
  cases hb : build_instructions (block_labels pf.blocks 0) functions
      ((pf.blocks.map Block.instructions).flatten) [] constants with
  | error e => rw [hb] at h; simp [Bind.bind, Except.bind] at h
  | ok t =>
      obtain ⟨instructions, registers, cs⟩ := t
      rw [hb] at h
      simp [Bind.bind, Except.bind] at h
      obtain ⟨h1, _⟩ := h
      subst h1
      have hkeys := build_instructions_keys hb
      have hlen : registers.length = (registers.map Prod.fst).length := by
        simp
      show registers.length % 2 ^ 8 = _
      rw [hlen, hkeys]
      rfl

/-! ### Concrete programs, modules and runs used by the claims -/

def prog_move_314 : String := "@f move %0, 3.14"

def prog_move_2 : String := "@f move %0, 2"

/-- A literal above `f32::MAX` (`10 ^ 39 − 1 > 3.4 · 10 ^ 38`). -/
def prog_move_big : String :=
  "@f move %0, 999999999999999999999999999999999999999"

/-- `2 ^ 24 + 1`: exact in `f64`, but the `as f32` cast rounds it (ties
to even) down to `2 ^ 24`. -/
def prog_move_round : String := "@f move %0, 16777217"

/-- `2 ^ 31 − 2`: exact in `f64`, the `as f32` cast rounds it up to
`2 ^ 31`, and the `as i32` cast then saturates to `2 ^ 31 − 1`. -/
def prog_move_sat : String := "@f move %0, 2147483646"

def module_move_314 : Module :=
  ⟨[⟨1, [⟨OpCode.Move,
    [Operand.Register 0, Operand.Immediate 3, Operand.None,
      Operand.None]⟩]⟩], []⟩

def module_move_2 : Module :=
  ⟨[⟨1, [⟨OpCode.Move,
    [Operand.Register 0, Operand.Immediate 2, Operand.None,
      Operand.None]⟩]⟩], []⟩

/-- The pool holds the literal's value rounded to binary64:
`999999999999999939709166371603178586112 = 6617444900424221 · 2 ^ 77`. -/
def module_move_big : Module :=
  ⟨[⟨1, [⟨OpCode.Move,
    [Operand.Register 0, Operand.Constant 0, Operand.None,
      Operand.None]⟩]⟩],
    [Constant.Number
      (F64.finite (mkRat 999999999999999939709166371603178586112 1))]⟩

def module_move_round : Module :=
  ⟨[⟨1, [⟨OpCode.Move,
    [Operand.Register 0, Operand.Immediate 16777216, Operand.None,
      Operand.None]⟩]⟩], []⟩

def module_move_sat : Module :=
  ⟨[⟨1, [⟨OpCode.Move,
    [Operand.Register 0, Operand.Immediate 2147483647, Operand.None,
      Operand.None]⟩]⟩], []⟩

def prog_ret_bare : String := "@f ret\n"

def prog_write_bare : String := "@f write\n"

def prog_ret_reg : String := "@f ret %0"

/-! ### C1 -/

/-- C1 (corrected), counterexample: the claim says `MOVE %0, 3.14` puts
`Number(3.14)` into the constant pool and encodes `Constant(0)`; the code
instead compares the parsed value against `f32::MAX` and, since
`3.14 ≤ f32::MAX`, emits `Immediate((3.14 as f32) as i32) = Immediate(3)`
with an empty pool. -/
theorem c1_counterexample :
    parse_program 100 prog_move_314 = Except.ok module_move_314 ∧
    module_move_314.constants = [] ∧
    module_move_314 ≠
      ⟨[⟨1, [⟨OpCode.Move,
        [Operand.Register 0, Operand.Constant 0, Operand.None,
          Operand.None]⟩]⟩],
        [Constant.Number (F64.finite (mkRat 157 50))]⟩ :=
  ⟨rfl, rfl, by decide⟩

/-- C1 (corrected), amended claim: a number literal is parsed as `f64`
(round-to-nearest binary64) and encoded as
`Immediate((num as f32) as i32)` — binary32 rounding, then truncation
toward zero saturating at the `i32` bounds — exactly when
`num ≤ f32::MAX`; only larger values go to the constant pool.
`MOVE %0, 3.14` assembles to `Immediate(3)` with an empty pool,
`MOVE %0, 2` to `Immediate(2)` with an empty pool, and a literal above
`f32::MAX` to `Constant(0)` with its binary64 value in the pool.  Both
rounding steps are visible: `16777217 = 2 ^ 24 + 1` assembles to
`Immediate(16777216)` (`f32` tie to even), and `2147483646 = 2 ^ 31 − 2`
to `Immediate(2147483647)` (`f32` rounds up to `2 ^ 31`, the `i32` cast
saturates). -/
theorem c1_theorem :
    (∀ (labels functions : List (String × Nat)) (line : Nat) (s : String)
        (v : F64) (registers : List (Nat × Nat)) (constants : List Constant),
      parse_f64 s = some v →
      build_operand labels functions line (PreOperand.Number s)
          registers constants =
        (if f64_le_f32_max v then
          Except.ok (Operand.Immediate (f64_as_f32_as_i32 v),
            registers, constants)
        else
          Except.ok (Operand.Constant (constants.length % 2 ^ 16),
            registers, constants ++ [Constant.Number v]))) ∧
    parse_program 100 prog_move_314 = Except.ok module_move_314 ∧
    parse_program 100 prog_move_2 = Except.ok module_move_2 ∧
    parse_program 100 prog_move_big = Except.ok module_move_big ∧
    parse_program 100 prog_move_round = Except.ok module_move_round ∧
    parse_program 100 prog_move_sat = Except.ok module_move_sat := by
  refine ⟨?_, rfl, rfl, rfl, rfl, rfl⟩
  intro labels functions line s v registers constants h
  unfold build_operand
  dsimp only
  rw [h]
  dsimp only
  split <;> rfl

/-- Witness for the general part of `c1_theorem`, at the literal
`"3.14"`, whose binary64 value is `7070651414971679 / 2 ^ 51`. -/
theorem c1_theorem_witness :
    build_operand [] [] 0 (PreOperand.Number ("3.14")) [] [] =
      (if f64_le_f32_max
          (F64.finite (mkRat 7070651414971679 2251799813685248)) then
        Except.ok (Operand.Immediate (f64_as_f32_as_i32
            (F64.finite (mkRat 7070651414971679 2251799813685248))),
          ([] : List (Nat × Nat)), ([] : List Constant))
      else
        Except.ok (Operand.Constant 0, [],
          [Constant.Number
            (F64.finite (mkRat 7070651414971679 2251799813685248))])) :=
  c1_theorem.1 [] [] 0 ("3.14")
    (F64.finite (mkRat 7070651414971679 2251799813685248)) [] [] (by rfl)

/-! ### C5 -/

/-- C5 (corrected), counterexample: the claim assigns tag `0xfffd` to
boolean true; in `value.rs` `TRUE_TAG = 0xfffc000000000000`, so
`Value::from(true)` is the word `0xfffc000000000000`, not
`0xfffd000000000000`. -/
theorem c5_counterexample :
    Value.from_bool true = ⟨0xfffc000000000000⟩ ∧
    Value.from_bool true ≠ ⟨0xfffd000000000000⟩ :=
  ⟨rfl, by decide⟩

/-- C5 (corrected), amended claim: the code's tag layout is true ↦
`0xfffc`, false ↦ `0xfffd`, null ↦ `0xffff`.  `value.rs` defines no
function tag at all — `Value::function`, called by `machina.rs`, is
missing from the sources; under the spec's table (function handles at
`0xfffc`) a function handle with index 0 would collide with the word for
`true`. -/
theorem c5_theorem :
    Value.from_bool true = ⟨0xfffc000000000000⟩ ∧
    Value.from_bool false = ⟨0xfffd000000000000⟩ ∧
    Value.null = ⟨0xffff000000000000⟩ ∧
    (Value.from_bool true).is_true = true ∧
    (Value.from_bool false).is_false = true ∧
    Value.function 5 = ⟨0xfffc000000000005⟩ ∧
    Value.function 0 = Value.from_bool true :=
  ⟨rfl, rfl, rfl, rfl, rfl, rfl, rfl⟩

/-! ### C9 -/

/-- C9 (corrected), counterexample: the claim says `RET`/`WRITE` with no
operand is accepted; `parse_unary_instructions` unconditionally calls
`parse_operand(Token::Register, false)` (the `false` only suppresses the
comma), so a bare `RET` or `WRITE` fails with an `Expected` error. -/
theorem c9_counterexample :
    parse_program 100 prog_ret_bare =
      Except.error (Fail.err
        ⟨MachinaErrorKind.Expected ("\x60register\x60") ("end of line"),
          1⟩) ∧
    parse_program 100 prog_write_bare =
      Except.error (Fail.err
        ⟨MachinaErrorKind.Expected ("\x60register\x60") ("end of line"),
          1⟩) :=
  ⟨rfl, rfl⟩

/-- C9 (corrected), amended claim: the register operand of `Ret`, `Write`
(and `Not`) is required — a bare mnemonic yields an `Expected` error —
and when the operand is present the remaining three slots of the linked
instruction stay `Operand::None`. -/
theorem c9_theorem :
    parse_program 100 prog_ret_bare =
      Except.error (Fail.err
        ⟨MachinaErrorKind.Expected ("\x60register\x60") ("end of line"),
          1⟩) ∧
    parse_program 100 prog_write_bare =
      Except.error (Fail.err
        ⟨MachinaErrorKind.Expected ("\x60register\x60") ("end of line"),
          1⟩) ∧
    parse_program 100 prog_ret_reg =
      Except.ok ⟨[⟨1, [⟨OpCode.Ret,
        [Operand.Register 0, Operand.None, Operand.None,
          Operand.None]⟩]⟩], []⟩ :=
  ⟨rfl, rfl, rfl⟩

/-! ### C10 -/

/-- C10 (confirmed): for every negative `i32` value, the tag-test
predicates are not mutually exclusive — `Value::from(i)` answers `true`
to `is_int`, `is_char` and `is_ptr` at once (sign extension fills the
high bits, and the tag tests are masked ANDs), while `get_int` still
round-trips to `i`. -/
theorem c10_theorem (i : Int) (h0 : -(2 ^ 31) ≤ i) (h1 : i < 0) :
    (Value.from_i32 i).is_int = true ∧
    (Value.from_i32 i).is_char = true ∧
    (Value.from_i32 i).is_ptr = true ∧
    (Value.from_i32 i).get_int = some i := by
  obtain ⟨ha, hb, hc, hd⟩ := tag_tests_neg h0 h1
  refine ⟨ha, hb, hc, ?_⟩
  unfold Value.get_int
  rw [ha, hd]
  simp

/-- Witness for `c10_theorem` at `i = -1`. -/
theorem c10_theorem_witness :
    (Value.from_i32 (-1)).is_int = true ∧
    (Value.from_i32 (-1)).is_char = true ∧
    (Value.from_i32 (-1)).is_ptr = true ∧
    (Value.from_i32 (-1)).get_int = some (-1) :=
  c10_theorem (-1) (by decide) (by decide)

/-! ### C2 -/

/-- Callee: doubles its argument and returns it (`ADD %0, %0; RET %0`). -/
def c2_callee : Function :=
  ⟨1, [⟨OpCode.Add,
        [Operand.Register 0, Operand.Register 0, Operand.None,
          Operand.None]⟩,
      ⟨OpCode.Ret,
        [Operand.Register 0, Operand.None, Operand.None, Operand.None]⟩]⟩

/-- Caller with two locals: `%0 := 7; %1 := 99;
`CALL @callee, %0, %1, %1; WRITE %0; WRITE %1; RET %0`. -/
def c2_caller : Function :=
  ⟨2, [⟨OpCode.Move,
        [Operand.Register 0, Operand.Immediate 7, Operand.None,
          Operand.None]⟩,
      ⟨OpCode.Move,
        [Operand.Register 1, Operand.Immediate 99, Operand.None,
          Operand.None]⟩,
      ⟨OpCode.Call,
        [Operand.Function 0, Operand.Register 0, Operand.Register 1,
          Operand.Register 1]⟩,
      ⟨OpCode.Write,
        [Operand.Register 0, Operand.None, Operand.None, Operand.None]⟩,
      ⟨OpCode.Write,
        [Operand.Register 1, Operand.None, Operand.None, Operand.None]⟩,
      ⟨OpCode.Ret,
        [Operand.Register 0, Operand.None, Operand.None, Operand.None]⟩]⟩

def c2_env : Environment := ⟨[c2_callee, c2_caller]⟩

def c2_run : Option Machine := Machine.call 30 c2_env Machine.new 1 0 0 0

/-- The final machine of `c2_run`: the callee returned 198, but the slot
that received it is physical register 1 (`callee_bp + dst`), the caller's
`%1`; the caller's `%0` — the declared destination — still holds 7. -/
def c2_final : Machine :=
  ⟨[Value.from_i32 7, Value.from_i32 198] ++
      List.replicate 14 Value.null, 0, 0,
    [ValueDebug.INT 7, ValueDebug.INT 198]⟩

/-- C2 (corrected), counterexample: the claim says the `Ret` value is
written into the caller's `%dst` because the saved `bp` is restored
before the write.  Here the callee returns 198 with `%dst = %0`, yet the
caller's `WRITE %0` right after the call prints `INT 7` — the old value —
because the write went through the callee's still-active `bp`. -/
theorem c2_counterexample :
    c2_run = some c2_final ∧
    c2_final.registers.get? 0 = some (Value.from_i32 7) ∧
    c2_final.output.getD 0 ValueDebug.NULL = ValueDebug.INT 7 ∧
    ValueDebug.INT 7 ≠ ValueDebug.INT 198 :=
  ⟨rfl, rfl, rfl, by decide⟩

/-- C2 (corrected), amended claim: `eval_ret` runs while `bp` is still
the callee's — the saved `(bp, rp)` pair is restored only after `eval`
returns — so the return value is written into
`registers[callee_bp + dst]` (which overlaps the caller's window at
`caller_rp + dst`), and only then are `bp` and `rp` restored.  In the run
above the 198 lands in physical register 1, the caller's `%1`, while
`%0` keeps its old value. -/
theorem c2_theorem :
    (∀ (fuel : Nat) (env : Environment) (st : Machine)
        (index ret first last : Nat) (st' : Machine),
      Machine.call fuel env st index ret first last = some st' →
      st'.bp = st.bp ∧ st'.rp = st.rp) ∧
    c2_run = some c2_final ∧
    c2_final.registers.get? 1 = some (Value.from_i32 198) ∧
    c2_final.output = [ValueDebug.INT 7, ValueDebug.INT 198] :=
  ⟨fun fuel env st index ret first last st' h =>
      call_restores_bp_rp fuel env st index ret first last st' h,
    rfl, rfl, rfl⟩

/-- Witness for the general part of `c2_theorem`, at the concrete run. -/
theorem c2_theorem_witness :
    c2_final.bp = Machine.new.bp ∧ c2_final.rp = Machine.new.rp :=
  c2_theorem.1 30 c2_env Machine.new 1 0 0 0 c2_final (by rfl)

/-! ### C3 -/

def prog_promotion : String :=
  "@f move %0, 1 move %1, 2.5 add %0, %1 ret %0"

def module_promotion : Module :=
  ⟨[⟨2, [⟨OpCode.Move,
      [Operand.Register 0, Operand.Immediate 1, Operand.None,
        Operand.None]⟩,
    ⟨OpCode.Move,
      [Operand.Register 1, Operand.Immediate 2, Operand.None,
        Operand.None]⟩,
    ⟨OpCode.Add,
      [Operand.Register 0, Operand.Register 1, Operand.None,
        Operand.None]⟩,
    ⟨OpCode.Ret,
      [Operand.Register 0, Operand.None, Operand.None,
        Operand.None]⟩]⟩], []⟩

def c3_final : Machine :=
  ⟨[Value.from_i32 3, Value.from_i32 2] ++ List.replicate 14 Value.null,
    0, 0, []⟩

def c3_add_instr : Instruction :=
  ⟨OpCode.Add,
    [Operand.Register 0, Operand.Register 1, Operand.None, Operand.None]⟩

/-- C3 (corrected), counterexample: per the claim the program
`MOVE %0, 1; MOVE %1, 2.5; ADD %0, %1; RET %0` returns the double 3.5.
In the code, 2.5 is linked as `Immediate(2)` (C1) and `eval_add` uses
`get_int` on both sides, so the program returns the int-tagged 3 —
not a double at all (`0x400C000000000000` is 3.5's IEEE-754 pattern). -/
theorem c3_counterexample :
    parse_program 100 prog_promotion = Except.ok module_promotion ∧
    run_module 20 module_promotion 0 0 0 0 = some c3_final ∧
    c3_final.registers.get? 0 = some (Value.from_i32 3) ∧
    Value.from_i32 3 ≠ Value.from_f64_bits 0x400C000000000000 ∧
    (Value.from_i32 3).is_num = false :=
  ⟨rfl, rfl, rfl, by decide, rfl⟩

/-- C3 (corrected), amended claim: `eval_add` (like `Sub`, `Mul`, `Div`)
coerces both operands with `get_int` — panicking unless both are
int-tagged, with no promotion to double arithmetic — and tags the result
as an integer; the example program returns the int-tagged 3. -/
theorem c3_theorem :
    (∀ a b : Int, -(2 ^ 31) ≤ a → a < 2 ^ 31 → -(2 ^ 31) ≤ b →
        b < 2 ^ 31 → -(2 ^ 31) ≤ a + b → a + b < 2 ^ 31 →
      Machine.eval_add ⟨[Value.from_i32 a, Value.from_i32 b], 0, 1, []⟩
          c3_add_instr =
        some ⟨[Value.from_i32 (a + b), Value.from_i32 b], 0, 1, []⟩) ∧
    Machine.eval_add
        ⟨[Value.from_f64_bits 0x4004000000000000, Value.from_i32 1],
          0, 1, []⟩ c3_add_instr = none ∧
    parse_program 100 prog_promotion = Except.ok module_promotion ∧
    run_module 20 module_promotion 0 0 0 0 = some c3_final ∧
    c3_final.registers.get? 0 = some (Value.from_i32 3) := by
  refine ⟨?_, rfl, rfl, rfl, rfl⟩
  intro a b ha1 ha2 hb1 hb2 hs1 hs2
  unfold Machine.eval_add Machine.eval_bin
  refine Option.bind_eq_some.mpr ⟨Value.from_i32 a, rfl, ?_⟩
  refine Option.bind_eq_some.mpr ⟨Value.from_i32 b, rfl, ?_⟩
  refine Option.bind_eq_some.mpr ⟨a, get_int_from_i32 ha1 ha2, ?_⟩
  refine Option.bind_eq_some.mpr ⟨b, get_int_from_i32 hb1 hb2, ?_⟩
  refine Option.bind_eq_some.mpr ⟨a + b, ?_, ?_⟩
  · unfold i32_add
    rw [if_pos ⟨hs1, hs2⟩]
  · refine Option.bind_eq_some.mpr ⟨0, rfl, ?_⟩
    rfl

/-- Witness for the general part of `c3_theorem`, at `1 + 2`. -/
theorem c3_theorem_witness :
    Machine.eval_add ⟨[Value.from_i32 1, Value.from_i32 2], 0, 1, []⟩
        c3_add_instr =
      some ⟨[Value.from_i32 3, Value.from_i32 2], 0, 1, []⟩ :=
  c3_theorem.1 1 2 (by decide) (by decide) (by decide) (by decide)
    (by decide) (by decide)

/-! ### C4 -/

def c4_eq_instr : Instruction :=
  ⟨OpCode.Eq,
    [Operand.Register 0, Operand.Register 1, Operand.None, Operand.None]⟩

def c4_ne_instr : Instruction :=
  ⟨OpCode.Ne,
    [Operand.Register 0, Operand.Register 1, Operand.None, Operand.None]⟩

/-- C4 (corrected), counterexample: the claim says `Eq` compares the raw
64-bit words, so two `Value`s built from the same double compare equal.
In the code `eval_eq` compares `a.get_int() == b.get_int()`, and
`get_int`'s assertion panics on a double — the machine never produces
`true` (`0x4004000000000000` is 2.5's IEEE-754 pattern). -/
theorem c4_counterexample :
    Machine.eval_eq
        ⟨[Value.from_f64_bits 0x4004000000000000,
          Value.from_f64_bits 0x4004000000000000], 0, 1, []⟩
        c4_eq_instr = none ∧
    (none : Option Machine) ≠
      some ⟨[Value.from_bool true,
        Value.from_f64_bits 0x4004000000000000], 0, 1, []⟩ :=
  ⟨rfl, by decide⟩

/-- C4 (corrected), amended claim: `Eq`/`Ne` compare via `get_int`
(an asserting masked-tag test plus the low-32-bit payload), not raw
words: on two values built from the same integer `Eq` stores tagged true
and `Ne` tagged false; on two equal doubles, chars, or boolean `true` the
machine panics inside `get_int`; null and boolean `false` accidentally
pass the masked int test with payload 0, so they compare equal to
themselves. -/
theorem c4_theorem :
    (∀ i : Int, -(2 ^ 31) ≤ i → i < 2 ^ 31 →
      Machine.eval_eq ⟨[Value.from_i32 i, Value.from_i32 i], 0, 1, []⟩
          c4_eq_instr =
        some ⟨[Value.from_bool true, Value.from_i32 i], 0, 1, []⟩ ∧
      Machine.eval_ne ⟨[Value.from_i32 i, Value.from_i32 i], 0, 1, []⟩
          c4_ne_instr =
        some ⟨[Value.from_bool false, Value.from_i32 i], 0, 1, []⟩) ∧
    Machine.eval_eq
        ⟨[Value.from_char ('a'), Value.from_char ('a')], 0, 1, []⟩
        c4_eq_instr = none ∧
    Machine.eval_eq
        ⟨[Value.from_bool true, Value.from_bool true], 0, 1, []⟩
        c4_eq_instr = none ∧
    Machine.eval_eq ⟨[Value.null, Value.null], 0, 1, []⟩ c4_eq_instr =
      some ⟨[Value.from_bool true, Value.null], 0, 1, []⟩ ∧
    Machine.eval_eq
        ⟨[Value.from_bool false, Value.from_bool false], 0, 1, []⟩
        c4_eq_instr =
      some ⟨[Value.from_bool true, Value.from_bool false], 0, 1, []⟩ := by
  refine ⟨?_, rfl, rfl, rfl, rfl⟩
  intro i h0 h1
  constructor
  · unfold Machine.eval_eq Machine.eval_cmp
    refine Option.bind_eq_some.mpr ⟨Value.from_i32 i, rfl, ?_⟩
    refine Option.bind_eq_some.mpr ⟨Value.from_i32 i, rfl, ?_⟩
    refine Option.bind_eq_some.mpr ⟨i, get_int_from_i32 h0 h1, ?_⟩
    refine Option.bind_eq_some.mpr ⟨i, get_int_from_i32 h0 h1, ?_⟩
    refine Option.bind_eq_some.mpr ⟨0, rfl, ?_⟩
    show Machine.set _ 0 (Value.from_bool (i == i)) = _
    rw [beq_self_eq_true]
    rfl
  · unfold Machine.eval_ne Machine.eval_cmp
    refine Option.bind_eq_some.mpr ⟨Value.from_i32 i, rfl, ?_⟩
    refine Option.bind_eq_some.mpr ⟨Value.from_i32 i, rfl, ?_⟩
    refine Option.bind_eq_some.mpr ⟨i, get_int_from_i32 h0 h1, ?_⟩
    refine Option.bind_eq_some.mpr ⟨i, get_int_from_i32 h0 h1, ?_⟩
    refine Option.bind_eq_some.mpr ⟨0, rfl, ?_⟩
    show Machine.set _ 0 (Value.from_bool (i != i)) = _
    rw [bne_self_eq_false]
    rfl

/-- Witness for the general part of `c4_theorem`, at `i = 5`. -/
theorem c4_theorem_witness :
    Machine.eval_eq ⟨[Value.from_i32 5, Value.from_i32 5], 0, 1, []⟩
        c4_eq_instr =
      some ⟨[Value.from_bool true, Value.from_i32 5], 0, 1, []⟩ :=
  (c4_theorem.1 5 (by decide) (by decide)).1

/-! ### C6 -/

/-- A pre-function whose only register is written `%5`. -/
def c6_pf : PreFunction :=
  ⟨"f", [⟨"<main>",
    [⟨OpCode.Move, 0,
      [PreOperand.Register ("5"), PreOperand.Number ("1")]⟩]⟩]⟩

/-- A pre-function using `%7` then `%3` then `%7` again. -/
def c6_pf2 : PreFunction :=
  ⟨"g", [⟨"<main>",
    [⟨OpCode.Move, 0,
      [PreOperand.Register ("7"), PreOperand.Number ("1")]⟩,
     ⟨OpCode.Add, 0,
      [PreOperand.Register ("7"), PreOperand.Register ("3")]⟩]⟩]⟩

/-- C6 (corrected), counterexample: the claim says register ids are kept
verbatim; `define_register` maps each id through
`registers.entry(id).or_insert(registers.len())`, so the first id seen
gets index 0 — a function whose only register is `%5` links to
`Operand::Register(0)`, not `Register(5)`. -/
theorem c6_counterexample :
    build_function c6_pf [("f", 0)] [] =
      Except.ok (⟨1, [⟨OpCode.Move,
        [Operand.Register 0, Operand.Immediate 1, Operand.None,
          Operand.None]⟩]⟩, []) ∧
    Operand.Register 0 ≠ Operand.Register 5 :=
  ⟨rfl, by decide⟩

/-- C6 (corrected), amended claim: register ids are renumbered densely in
order of first occurrence (the id map is populated with
`or_insert(len)`), and `locals` equals the number of distinct register
ids referenced by the body (cast `as u8`). -/
theorem c6_theorem :
    (∀ (pf : PreFunction) (functions : List (String × Nat))
        (constants : List Constant) (f : Function)
        (constants' : List Constant),
      build_function pf functions constants = Except.ok (f, constants') →
      f.locals = (first_occs (pre_function_reg_ids pf)).length % 2 ^ 8) ∧
    build_function c6_pf2 [] [] =
      Except.ok (⟨2, [⟨OpCode.Move,
          [Operand.Register 0, Operand.Immediate 1, Operand.None,
            Operand.None]⟩,
        ⟨OpCode.Add,
          [Operand.Register 0, Operand.Register 1, Operand.None,
            Operand.None]⟩]⟩, []) ∧
    Operand.Register 0 ≠ Operand.Register 7 :=
  ⟨fun pf functions constants f constants' h =>
      build_function_locals h, rfl, by decide⟩

/-- Witness for the general part of `c6_theorem`, at `c6_pf2` (two
distinct ids, `%7 ↦ 0` and `%3 ↦ 1`). -/
theorem c6_theorem_witness :
    (Function.mk 2 [⟨OpCode.Move,
        [Operand.Register 0, Operand.Immediate 1, Operand.None,
          Operand.None]⟩,
      ⟨OpCode.Add,
        [Operand.Register 0, Operand.Register 1, Operand.None,
          Operand.None]⟩]).locals =
      (first_occs (pre_function_reg_ids c6_pf2)).length % 2 ^ 8 :=
  c6_theorem.1 c6_pf2 [] [] _ [] (by rfl)

/-! ### C7 -/

def c7_move_instr : Instruction :=
  ⟨OpCode.Move,
    [Operand.Register 0, Operand.Immediate 1, Operand.None, Operand.None]⟩

/-- A function claiming 30 locals whose body only touches `%0`. -/
def c7_function : Function :=
  ⟨30, [c7_move_instr,
    ⟨OpCode.Ret,
      [Operand.Register 0, Operand.None, Operand.None, Operand.None]⟩]⟩

def c7_env : Environment := ⟨[c7_function]⟩

/-- The machine state after `call`'s prologue, `alloc 30` and the first
executed instruction: `rp = 29` while the register file still has its
initial 16 slots. -/
def c7_mid : Machine :=
  ⟨Value.from_i32 1 :: List.replicate 15 Value.null, 0, 29, []⟩

def c7_done : Machine :=
  ⟨Value.from_i32 1 :: List.replicate 15 Value.null, 0, 0, []⟩

/-- The exact prologue-and-first-instruction composition that
`Machine.call 5 c7_env Machine.new 0 0 0 0` steps through. -/
def c7_mid_run : Option Machine :=
  ((copy_args_go (Machine.new.resize_registers 1) 0 0 1).map
      (fun s => { s with bp := s.rp })).bind
    (fun s => (s.alloc 30).bind (fun sA => sA.eval_move c7_move_instr))

/-- C7 (corrected), counterexample: the claim's invariant
`bp ≤ rp < registers.len()` fails after an executed instruction — `eval`'s
`alloc` sets `rp := bp + locals − 1` with no capacity check, so a callee
with 30 locals runs with `rp = 29` over a 16-slot file; execution
continues past the violating state and the run completes. -/
theorem c7_counterexample :
    c7_mid_run = some c7_mid ∧
    c7_mid.bp ≤ c7_mid.rp ∧
    ¬ (c7_mid.rp < c7_mid.registers.length) ∧
    Machine.eval_loop 3 c7_env c7_function 0 c7_mid 1 = some c7_mid ∧
    Machine.call 5 c7_env Machine.new 0 0 0 0 = some c7_done :=
  ⟨rfl, by decide, by decide, rfl, rfl⟩

/-- C7 (corrected), amended claim: `bp ≤ rp < registers.len()` is not an
invariant.  At call time the register file is resized once — to
`⌊1.5 × current⌋` with null fill, when `rp + window` reaches the current
length — without repeating; `alloc` then sets `rp := bp + locals − 1`
unchecked, so `rp` can point past the end of the file while execution
continues. -/
theorem c7_theorem :
    (∀ (st : Machine) (total : Nat),
      (st.resize_registers total).registers.length =
        (if (st.registers.length : Int) - ((st.rp + total : Nat) : Int) ≤ 0
          then 3 * st.registers.length / 2
          else st.registers.length)) ∧
    (∀ (st : Machine) (total : Nat), 0 < st.bp + total →
      st.alloc total = some { st with rp := st.bp + total - 1 }) ∧
    c7_mid_run = some c7_mid ∧
    ¬ (c7_mid.rp < c7_mid.registers.length) := by
  refine ⟨?_, ?_, rfl, by decide⟩
  · intro st total
    simp only [Machine.resize_registers]
    split
    · simp [list_resize_length]
    · rfl
  · intro st total h
    unfold Machine.alloc
    rw [if_neg (by omega)]

/-- Witness for the quantified parts of `c7_theorem`: the fresh machine
resized for a window of 20 (16 ≤ 0 + 20, so the file grows to 24), and
`alloc 30` on the fresh machine. -/
theorem c7_theorem_witness :
    (Machine.new.resize_registers 20).registers.length =
      (if ((Machine.new.registers.length : Int) -
          ((Machine.new.rp + 20 : Nat) : Int) ≤ 0)
        then 3 * Machine.new.registers.length / 2
        else Machine.new.registers.length) ∧
    Machine.new.alloc 30 = some { Machine.new with rp := 0 + 30 - 1 } :=
  ⟨c7_theorem.1 Machine.new 20, c7_theorem.2.1 Machine.new 30 (by decide)⟩

/-! ### C8 -/

def write_none_instr : Instruction :=
  ⟨OpCode.Write,
    [Operand.None, Operand.None, Operand.None, Operand.None]⟩

def write_reg0_instr : Instruction :=
  ⟨OpCode.Write,
    [Operand.Register 0, Operand.None, Operand.None, Operand.None]⟩

/-- C8 (corrected), counterexample: per the claim, `WRITE` with
`Operand::None` prints a blank line.  The code prints
`println!("{:#?}", value)` — the `Debug` rendering — and the null value
an absent operand produces passes the masked `is_int` test (its word is
`0xffff…`), so the printed line is `INT 0`, not blank. -/
theorem c8_counterexample :
    Machine.new.eval_write write_none_instr =
      some { Machine.new with output := [ValueDebug.INT 0] } ∧
    Machine.get Machine.new Operand.None = some Value.null ∧
    Value.null.is_int = true ∧
    debug_text (ValueDebug.INT 0) = some ("INT 0") ∧
    ("INT 0" : String) ≠ ("" : String) :=
  ⟨rfl, rfl, rfl, rfl, by decide⟩

/-- C8 (corrected), amended claim: `WRITE` prints the operand's value in
the `Debug` rendering of `Value` (`{:#?}`): int-tagged values print as
`INT n` (decimal), tagged true as `TRUE`, and a missing operand yields
the null word, which passes the masked `is_int` test and prints `INT 0`
rather than a blank line (`NULL` itself is unreachable through `Write`).
-/
theorem c8_theorem :
    (∀ i : Int, -(2 ^ 31) ≤ i → i < 2 ^ 31 →
      Machine.eval_write ⟨[Value.from_i32 i], 0, 0, []⟩ write_reg0_instr =
        some ⟨[Value.from_i32 i], 0, 0, [ValueDebug.INT i]⟩) ∧
    Machine.new.eval_write write_none_instr =
      some { Machine.new with output := [ValueDebug.INT 0] } ∧
    debug_text (ValueDebug.INT 5) = some ("INT 5") ∧
    debug_text (ValueDebug.INT (-3)) = some ("INT -3") ∧
    debug_text ValueDebug.TRUE = some ("TRUE") ∧
    Machine.eval_write ⟨[Value.from_bool true], 0, 0, []⟩
        write_reg0_instr =
      some ⟨[Value.from_bool true], 0, 0, [ValueDebug.TRUE]⟩ := by
  refine ⟨?_, rfl, rfl, rfl, rfl, rfl⟩
  intro i h0 h1
  unfold Machine.eval_write
  refine Option.bind_eq_some.mpr ⟨Value.from_i32 i, rfl, ?_⟩
  refine Option.bind_eq_some.mpr
    ⟨ValueDebug.INT i, debug_fmt_from_i32 h0 h1, ?_⟩
  rfl

/-- Witness for the general part of `c8_theorem`, at `i = -1`. -/
theorem c8_theorem_witness :
    Machine.eval_write ⟨[Value.from_i32 (-1)], 0, 0, []⟩
        write_reg0_instr =
      some ⟨[Value.from_i32 (-1)], 0, 0, [ValueDebug.INT (-1)]⟩ :=
  c8_theorem.1 (-1) (by decide) (by decide)

end Machina
